import Mathlib

/-!
Verification of the grading core of `llm-exam-game` (server `server.js` and
static client `public/grader.js`): JS data values, the resilient JSON
extractor `safeJsonParse`, the result normalizer inside `handleGrade` /
`gradeAnswer`, the provider routing, the provider-adapter response handling,
and the prompt builder `buildGradingMessages`.

JS numbers are modelled as exact rationals plus NaN and the two infinities;
this is exact for every comparison, `Math.min`/`Math.max` and clamping step
the code performs (no float rounding is relevant to the verified claims).
JS strings are modelled as Lean strings / lists of characters.
-/

namespace ExamGame

/-- A JavaScript number: a finite value (exact rational), `NaN`, or `±Infinity`. -/
inductive JNum where
  | fin (q : ℚ)
  | nan
  | posInf
  | negInf
deriving DecidableEq, Repr

/-- `Number.isFinite`. -/
def JNum.isFinite : JNum → Bool
  | .fin _ => true
  | _ => false

/-- Truthiness of a JS number (`0`, `-0` and `NaN` are falsy). -/
def JNum.truthyN : JNum → Bool
  | .fin q => decide (q ≠ 0)
  | .nan => false
  | .posInf => true
  | .negInf => true

/-- `Math.min` on two JS numbers (NaN-propagating). -/
def jsMin : JNum → JNum → JNum
  | .nan, _ => .nan
  | _, .nan => .nan
  | .negInf, _ => .negInf
  | _, .negInf => .negInf
  | .posInf, b => b
  | a, .posInf => a
  | .fin a, .fin b => .fin (min a b)

/-- `Math.max` on two JS numbers (NaN-propagating). -/
def jsMax : JNum → JNum → JNum
  | .nan, _ => .nan
  | _, .nan => .nan
  | .posInf, _ => .posInf
  | _, .posInf => .posInf
  | .negInf, b => b
  | a, .negInf => a
  | .fin a, .fin b => .fin (max a b)

/-- A JavaScript value as the grading core manipulates them.  Arrays carry
their element list and, faithfully to JS, a separate bag of named
(non-index) properties, since the normalizer assigns named properties to
whatever object-typed value it received, including arrays.  `undefined` is
represented by `Option.none` at use sites (`JValU`). -/
inductive JVal where
  | null
  | bool (b : Bool)
  | num (n : JNum)
  | str (s : String)
  | arr (elems : List JVal) (props : List (String × JVal))
  | obj (props : List (String × JVal))

/-- A JS value or `undefined` (`none`). -/
abbrev JValU := Option JVal

/-- Truthiness of a JS value. -/
def truthy : JVal → Bool
  | .null => false
  | .bool b => b
  | .num n => n.truthyN
  | .str s => s ≠ ""
  | .arr _ _ => true
  | .obj _ => true

/-- Truthiness of a possibly-`undefined` JS value. -/
def truthyU : JValU → Bool
  | none => false
  | some v => truthy v

/-- `typeof v === "number"`. -/
def isNumTypeU : JValU → Bool
  | some (.num _) => true
  | _ => false

/-- `typeof v === "string"`. -/
def isStrTypeU : JValU → Bool
  | some (.str _) => true
  | _ => false

/-- `typeof v === "object"` (true for objects, arrays and `null`). -/
def isObjTypeU : JValU → Bool
  | some (.obj _) => true
  | some (.arr _ _) => true
  | some .null => true
  | _ => false

/-- `Array.isArray v`. -/
def isArrU : JValU → Bool
  | some (.arr _ _) => true
  | _ => false

/-- Whether a value can carry properties (a non-null object or an array). -/
def objLike : JVal → Bool
  | .obj _ => true
  | .arr _ _ => true
  | _ => false

/-- Association-list lookup of an object property (first match). -/
def lookupField : List (String × JVal) → String → Option JVal
  | [], _ => none
  | (k, v) :: tl, key => if k = key then some v else lookupField tl key

/-- Association-list property write: overwrite in place, else append
(insertion-order semantics of JS objects). -/
def setField : List (String × JVal) → String → JVal → List (String × JVal)
  | [], key, v => [(key, v)]
  | (k, w) :: tl, key, v =>
    if k = key then (k, v) :: tl else (k, w) :: setField tl key v

/-- Property read `v[key]`; `none` is JS `undefined` (also for reads on
primitives, whose built-in properties the grading code never touches). -/
def getProp : JVal → String → Option JVal
  | .obj fs, key => lookupField fs key
  | .arr _ ps, key => lookupField ps key
  | _, _ => none

/-- Optional-chain read `v?.[key]`. -/
def getPropU : JValU → String → Option JVal
  | none, _ => none
  | some v, key => getProp v key

/-- Property write `v[key] = x` in sloppy mode: a silent no-op on
primitives (the server runs in sloppy mode). -/
def setProp : JVal → String → JVal → JVal
  | .obj fs, key, v => .obj (setField fs key v)
  | .arr xs ps, key, v => .arr xs (setField ps key v)
  | w, _, _ => w

/-- Array index read `v?.[i]`. -/
def getIdxU : JValU → Nat → Option JVal
  | some (.arr xs _), i => xs.get? i
  | _, _ => none

/-- JSON whitespace (the four characters `JSON.parse` skips). -/
def isJsonWs (c : Char) : Bool :=
  c = ' ' ∨ c = '\t' ∨ c = '\n' ∨ c = '\r'

/-- JS `\s` / `String.prototype.trim` whitespace. -/
def isJsWs (c : Char) : Bool :=
  c = ' ' ∨ c = '\t' ∨ c = '\n' ∨ c = '\r' ∨ c = '\x0b' ∨ c = '\x0c' ∨
  c = ' ' ∨ c = '﻿' ∨ c = ' ' ∨ c = ' '

/-- Strip leading JS whitespace from a character list. -/
def trimLeftL (l : List Char) : List Char := l.dropWhile isJsWs

/-- Strip trailing JS whitespace from a character list. -/
def trimRightL (l : List Char) : List Char := (l.reverse.dropWhile isJsWs).reverse

/-- JS `String.prototype.trim` on a character list. -/
def jsTrimL (l : List Char) : List Char := trimRightL (trimLeftL l)

/-- JS `String.prototype.trim`. -/
def jsTrim (s : String) : String := ⟨jsTrimL s.toList⟩

/-- Decimal digits of a natural number (exact; JS prints integers this way
up to 2^53, which covers every integral value the grading code handles). -/
def natToStr (n : Nat) : String := toString n

/-- Fractional decimal digits of `rem / den`, up to `fuel` digits (exact
whenever the expansion terminates; every concrete value in this development
does). -/
def fracDigitsStr (rem den : Nat) : Nat → String
  | 0 => ""
  | fuel + 1 =>
    if rem = 0 then ""
    else
      let r10 := rem * 10
      natToStr (r10 / den) ++ fracDigitsStr (r10 % den) den fuel

/-- Decimal rendering of a non-negative rational. -/
def qToStrNonneg (q : ℚ) : String :=
  let ip : Nat := q.num.toNat / q.den
  let rem : Nat := q.num.toNat % q.den
  if rem = 0 then natToStr ip
  else natToStr ip ++ "." ++ fracDigitsStr rem q.den 100

/-- JS number-to-string conversion (template literals, `String(..)`). -/
def numToString : JNum → String
  | .nan => "NaN"
  | .posInf => "Infinity"
  | .negInf => "-Infinity"
  | .fin q => if q < 0 then "-" ++ qToStrNonneg (-q) else qToStrNonneg q

/-- Take a maximal run of decimal digits. -/
def takeDigits (l : List Char) : List Char × List Char :=
  (l.takeWhile Char.isDigit, l.dropWhile Char.isDigit)

/-- Value of a list of decimal digits. -/
def digitsVal (l : List Char) : Nat :=
  l.foldl (fun a c => a * 10 + (c.toNat - 48)) 0

/-- Value of a list of hexadecimal digits. -/
def hexVal (l : List Char) : Nat :=
  l.foldl (fun a c =>
    a * 16 +
      (if c.isDigit then c.toNat - 48
       else if 'a' ≤ c ∧ c ≤ 'f' then c.toNat - 87
       else c.toNat - 55)) 0

/-- Is `c` a hexadecimal digit. -/
def isHexDigit (c : Char) : Bool :=
  c.isDigit ∨ ('a' ≤ c ∧ c ≤ 'f') ∨ ('A' ≤ c ∧ c ≤ 'F')

/-- Unsigned decimal literal accepted by JS `Number()`:
`digits [. digits] [exp]`, `. digits [exp]`; must consume the whole input. -/
def parseUnsignedDec (l : List Char) : Option ℚ :=
  let (ip, r1) := takeDigits l
  let (fp, r2) :=
    match r1 with
    | '.' :: tl => takeDigits tl
    | _ => ([], r1)
  if ip = [] ∧ fp = [] then none
  else
    let mantissa : ℚ :=
      if fp.isEmpty then (digitsVal ip : ℚ)
      else (digitsVal ip : ℚ) + (digitsVal fp : ℚ) / ((10 : ℚ) ^ fp.length)
    match r2 with
    | [] => some mantissa
    | 'e' :: tl => parseExpPart mantissa tl
    | 'E' :: tl => parseExpPart mantissa tl
    | _ => none
where
  /-- Exponent part `[+-] digits` applied to a mantissa. -/
  parseExpPart (m : ℚ) (l : List Char) : Option ℚ :=
    let (neg, rest) :=
      match l with
      | '+' :: tl => (false, tl)
      | '-' :: tl => (true, tl)
      | _ => (false, l)
    let (ds, r) := takeDigits rest
    if ds = [] ∨ r ≠ [] then none
    else if neg then some (m / (10 : ℚ) ^ digitsVal ds)
    else some (m * (10 : ℚ) ^ digitsVal ds)

/-- JS `Number()` applied to a string: trim, empty means 0, `Infinity`
forms, hex literals, else a full-string decimal literal, else `NaN`. -/
def strToNum (s : String) : JNum :=
  let t := jsTrimL s.toList
  if t = [] then .fin 0
  else
    let (neg, signed, body) :=
      match t with
      | '+' :: tl => (false, true, tl)
      | '-' :: tl => (true, true, tl)
      | _ => (false, false, t)
    if body = "Infinity".toList then (if neg then .negInf else .posInf)
    else
      match body with
      | '0' :: 'x' :: tl =>
        if ¬signed ∧ tl ≠ [] ∧ tl.all isHexDigit then .fin (hexVal tl : ℚ) else .nan
      | '0' :: 'X' :: tl =>
        if ¬signed ∧ tl ≠ [] ∧ tl.all isHexDigit then .fin (hexVal tl : ℚ) else .nan
      | _ =>
        match parseUnsignedDec body with
        | some q => .fin (if neg then -q else q)
        | none => .nan

mutual

/-- JS value-to-string conversion (`String(v)`, template literals). -/
def jsToStringV : JVal → String
  | .null => "null"
  | .bool true => "true"
  | .bool false => "false"
  | .num n => numToString n
  | .str s => s
  | .arr xs _ => joinElems xs
  | .obj _ => "[object Object]"

/-- `Array.prototype.join(",")` element rendering (`null` renders empty). -/
def joinElems : List JVal → String
  | [] => ""
  | [v] => elemStr v
  | v :: tl => elemStr v ++ "," ++ joinElems tl

/-- One array element as `join` renders it. -/
def elemStr : JVal → String
  | .null => ""
  | v => jsToStringV v

end

/-- `String(u)` for a possibly-`undefined` value. -/
def jsToStringU : JValU → String
  | none => "undefined"
  | some v => jsToStringV v

/-- JS `Number()` coercion of a possibly-`undefined` value. -/
def jsToNumber : JValU → JNum
  | none => .nan
  | some .null => .fin 0
  | some (.bool b) => .fin (if b then 1 else 0)
  | some (.num n) => n
  | some (.str s) => strToNum s
  | some (.arr xs _) => strToNum (joinElems xs)
  | some (.obj _) => .nan

/-- `clampNumber(n, min, max, fallback)` from `server.js` lines 179-183 /
`grader.js` lines 9-13: `Number`-coerce, fall back when not finite, else
clamp. -/
def clampNumber (n : JValU) (mn mx fb : ℚ) : ℚ :=
  match jsToNumber n with
  | .fin x => min mx (max mn x)
  | _ => fb

/-- Skip JSON whitespace. -/
def skipWsJ (l : List Char) : List Char := l.dropWhile isJsonWs

/-- JSON number literal: `-? (0 | [1-9]digits) (. digits)? ([eE][+-]?digits)?`;
returns the value and the unconsumed remainder.  Integral literals are
built without any rational division so that concrete runs reduce in the
kernel. -/
def parseNumLit (cs : List Char) : Option (JVal × List Char) :=
  let (neg, r0) :=
    match cs with
    | '-' :: tl => (true, tl)
    | _ => (false, cs)
  let (ip, r1) :=
    match r0 with
    | '0' :: tl => (['0'], tl)
    | _ => takeDigits r0
  if ip = [] then none
  else
    let (fp, r2) :=
      match r1 with
      | '.' :: tl => takeDigits tl
      | _ => ([], r1)
    if (match r1 with | '.' :: _ => fp.isEmpty | _ => false) then none
    else
      let (expPart, r3) :=
        match r2 with
        | 'e' :: tl => expDigits tl
        | 'E' :: tl => expDigits tl
        | _ => (some (0 : ℤ), r2)
      match expPart with
      | none => none
      | some e =>
        let base : ℚ :=
          if fp = [] ∧ e = 0 then (digitsVal ip : ℚ)
          else ((digitsVal ip : ℚ) + (digitsVal fp : ℚ) / (10 : ℚ) ^ fp.length) *
            (if 0 ≤ e then (10 : ℚ) ^ e.toNat else 1 / (10 : ℚ) ^ (-e).toNat)
        some (.num (.fin (if neg then -base else base)), r3)
where
  /-- `[+-]? digits`; `none` marks a malformed exponent. -/
  expDigits (l : List Char) : Option ℤ × List Char :=
    let (sgn, rest) :=
      match l with
      | '+' :: tl => ((1 : ℤ), tl)
      | '-' :: tl => ((-1 : ℤ), tl)
      | _ => ((1 : ℤ), l)
    let (ds, r) := takeDigits rest
    if ds = [] then (none, l) else (some (sgn * (digitsVal ds : ℤ)), r)

/-- JSON string body after the opening quote: contents and remainder. -/
def parseStringBody : Nat → List Char → List Char → Option (String × List Char)
  | 0, _, _ => none
  | fuel + 1, acc, cs =>
    match cs with
    | [] => none
    | '"' :: rest => some (⟨acc⟩, rest)
    | '\\' :: e :: rest =>
      if e = '"' then parseStringBody fuel (acc ++ ['"']) rest
      else if e = '\\' then parseStringBody fuel (acc ++ ['\\']) rest
      else if e = '/' then parseStringBody fuel (acc ++ ['/']) rest
      else if e = 'b' then parseStringBody fuel (acc ++ ['\x08']) rest
      else if e = 'f' then parseStringBody fuel (acc ++ ['\x0c']) rest
      else if e = 'n' then parseStringBody fuel (acc ++ ['\n']) rest
      else if e = 'r' then parseStringBody fuel (acc ++ ['\r']) rest
      else if e = 't' then parseStringBody fuel (acc ++ ['\t']) rest
      else if e = 'u' then
        match rest with
        | a :: b :: c :: d :: r2 =>
          if isHexDigit a ∧ isHexDigit b ∧ isHexDigit c ∧ isHexDigit d then
            parseStringBody fuel (acc ++ [Char.ofNat (hexVal [a, b, c, d])]) r2
          else none
        | _ => none
      else none
    | c :: rest =>
      if c.toNat < 32 then none else parseStringBody fuel (acc ++ [c]) rest

mutual

/-- One JSON value (recursive descent over a fuel bound). -/
def parseValue : Nat → List Char → Option (JVal × List Char)
  | 0, _ => none
  | fuel + 1, cs =>
    match skipWsJ cs with
    | [] => none
    | c :: tl =>
      if c = '{' then parseObjBody fuel tl
      else if c = '[' then parseArrBody fuel tl
      else if c = '"' then
        match parseStringBody fuel [] tl with
        | some (s, rest) => some (.str s, rest)
        | none => none
      else if c = 't' then
        if tl.take 3 = ['r', 'u', 'e'] then some (.bool true, tl.drop 3) else none
      else if c = 'f' then
        if tl.take 4 = ['a', 'l', 's', 'e'] then some (.bool false, tl.drop 4) else none
      else if c = 'n' then
        if tl.take 3 = ['u', 'l', 'l'] then some (.null, tl.drop 3) else none
      else if c = '-' ∨ c.isDigit then parseNumLit (c :: tl)
      else none

/-- Object body after `{`. -/
def parseObjBody : Nat → List Char → Option (JVal × List Char)
  | 0, _ => none
  | fuel + 1, cs =>
    match skipWsJ cs with
    | '}' :: rest => some (.obj [], rest)
    | _ => parseMembers fuel [] cs

/-- Members of an object (duplicate keys overwrite in place, as in JS). -/
def parseMembers : Nat → List (String × JVal) → List Char → Option (JVal × List Char)
  | 0, _, _ => none
  | fuel + 1, acc, cs =>
    match skipWsJ cs with
    | '"' :: tl =>
      match parseStringBody fuel [] tl with
      | some (k, r1) =>
        match skipWsJ r1 with
        | ':' :: r2 =>
          match parseValue fuel r2 with
          | some (v, r3) =>
            match skipWsJ r3 with
            | ',' :: r4 => parseMembers fuel (setField acc k v) r4
            | '}' :: r4 => some (.obj (setField acc k v), r4)
            | _ => none
          | none => none
        | _ => none
      | none => none
    | _ => none

/-- Array body after `[`. -/
def parseArrBody : Nat → List Char → Option (JVal × List Char)
  | 0, _ => none
  | fuel + 1, cs =>
    match skipWsJ cs with
    | ']' :: rest => some (.arr [] [], rest)
    | _ => parseElems fuel [] cs

/-- Elements of an array. -/
def parseElems : Nat → List JVal → List Char → Option (JVal × List Char)
  | 0, _, _ => none
  | fuel + 1, acc, cs =>
    match parseValue fuel cs with
    | some (v, r1) =>
      match skipWsJ r1 with
      | ',' :: r2 => parseElems fuel (acc ++ [v]) r2
      | ']' :: r2 => some (.arr (acc ++ [v]) [], r2)
      | _ => none
    | none => none

end

/-- `JSON.parse` on a character list: one value, then only whitespace. -/
def jsonParseL (l : List Char) : Option JVal :=
  match parseValue (4 * l.length + 16) l with
  | some (v, rest) => if skipWsJ rest = [] then some v else none
  | none => none

/-- `JSON.parse` on a string. -/
def jsonParse (s : String) : Option JVal := jsonParseL s.toList

/-- Index of the first occurrence of `pat` as a contiguous sublist of `l`. -/
def findSub (pat : List Char) : List Char → Option Nat
  | [] => if pat.isEmpty then some 0 else none
  | c :: tl =>
    if pat.isPrefixOf (c :: tl) then some 0
    else (findSub pat tl).map (· + 1)

/-- The three-backtick fence delimiter. -/
def tick3 : List Char := ['`', '`', '`']

/-- Strip trailing JS whitespace (the `\s*` before the closing fence). -/
def dropTrailingWs (l : List Char) : List Char := (l.reverse.dropWhile isJsWs).reverse

/-- Case-insensitive check for a leading `json` label. -/
def hasJsonLabel : List Char → Bool
  | a :: b :: c :: d :: _ =>
    a.toLower = 'j' ∧ b.toLower = 's' ∧ c.toLower = 'o' ∧ d.toLower = 'n'
  | _ => false

/-- The capture of `/(?:json)?\s*([\s\S]*?)\s*/` between the first two
code fences, as the regex in `safeJsonParse` matches it: the match starts
at the first ` ``` `, optionally consumes a (case-insensitive) `json`
label and following whitespace, and the lazy inner group ends at the
first subsequent ` ``` `, with the whitespace run before it stripped. -/
def fenceInner (t : List Char) : Option (List Char) :=
  match findSub tick3 t with
  | none => none
  | some i =>
    let r1 := t.drop (i + 3)
    let r2 := if hasJsonLabel r1 then r1.drop 4 else r1
    let r3 := r2.dropWhile isJsWs
    match findSub tick3 r3 with
    | none => none
    | some j => some (dropTrailingWs (r3.take j))

/-- `safeJsonParse` (`server.js` lines 309-340 / `grader.js` lines 15-30)
on a character list: trim; try a direct parse; then the inner content of a
fenced block (when the capture is non-empty); then the slice from the
first `\x7b` to the last `\x7d`.  Returns `JVal.null` when everything
fails, exactly as the JS function returns `null`. -/
def safeJsonParseL (cs : List Char) : JVal :=
  let trimmed := jsTrimL cs
  if trimmed.isEmpty then .null
  else
    match jsonParseL trimmed with
    | some v => v
    | none =>
      let viaFence : Option JVal :=
        match fenceInner trimmed with
        | some inner =>
          if inner.isEmpty then none
          else jsonParseL (jsTrimL inner)
        | none => none
      match viaFence with
      | some v => v
      | none =>
        match trimmed.findIdx? (· = '\x7b'), (trimmed.reverse.findIdx? (· = '\x7d')).map
            (fun k => trimmed.length - 1 - k) with
        | some first, some last =>
          if first < last then
            match jsonParseL ((trimmed.take (last + 1)).drop first) with
            | some v => v
            | none => .null
          else .null
        | _, _ => .null

/-- `safeJsonParse` on a JS value (the function first checks
`typeof text === "string"`). -/
def safeJsonParseU : JValU → JVal
  | some (.str s) => safeJsonParseL s.toList
  | _ => .null

/-- `safeJsonParse` on a string. -/
def safeJsonParse (s : String) : JVal := safeJsonParseL s.toList

/-- Score/maxScore normalization, `server.js` lines 459-461:
`parsed.maxScore = maxScore`; a score that is not a number-typed finite
value is set to 0 (no coercion of strings); then
`parsed.score = Math.max(0, Math.min(maxScore, parsed.score))`. -/
def normScoreFields (p : JVal) (maxScore : ℚ) : JVal :=
  let p1 := setProp p "maxScore" (.num (.fin maxScore))
  let scoreOk :=
    match getProp p1 "score" with
    | some (.num (.fin _)) => true
    | _ => false
  let p2 := if scoreOk then p1 else setProp p1 "score" (.num (.fin 0))
  setProp p2 "score"
    (.num (jsMax (.fin 0) (jsMin (.fin maxScore) (jsToNumber (getProp p2 "score")))))

/-- One `if (!Array.isArray(parsed[k])) parsed[k] = []` step. -/
def normArrField (p : JVal) (k : String) : JVal :=
  if isArrU (getProp p k) then p else setProp p k (.arr [] [])

/-- The four free-text array fields, `server.js` lines 463-466 /
`grader.js` lines 216-218. -/
def normArrays (p : JVal) : JVal :=
  normArrField (normArrField (normArrField (normArrField p
    "strengths") "missingPoints") "improvements") "suggestedOutline"

/-- The replacement value `{ topics: [], refsToReview: [] }`. -/
def emptyBooklist : JVal :=
  .obj [("topics", .arr [] []), ("refsToReview", .arr [] [])]

/-- `booklistAlignment` normalization, `server.js` lines 467-471.  On a
primitive `parsed` the property writes are sloppy-mode no-ops, so line 470
reads `undefined.topics` and raises a `TypeError` (modelled as `.error`). -/
def normBooklist (p : JVal) : Except String JVal :=
  let ba0 := getProp p "booklistAlignment"
  let p1 :=
    if truthyU ba0 ∧ isObjTypeU ba0 then p
    else setProp p "booklistAlignment" emptyBooklist
  match getProp p1 "booklistAlignment" with
  | none => .error "TypeError: cannot read properties of undefined (reading topics)"
  | some ba =>
    let ba1 := if isArrU (getProp ba "topics") then ba else setProp ba "topics" (.arr [] [])
    let ba2 :=
      if isArrU (getProp ba1 "refsToReview") then ba1
      else setProp ba1 "refsToReview" (.arr [] [])
    .ok (setProp p1 "booklistAlignment" ba2)

/-- The wholesale `nextDrill` replacement `{ prompt: "", timeboxMinutes: 10 }`
of `server.js` line 473 (also the `nextDrill` of the parse-failure fallback
at line 453). -/
def emptyDrillServer : JVal :=
  .obj [("prompt", .str ""), ("timeboxMinutes", .num (.fin 10))]

/-- `nextDrill` normalization, `server.js` lines 472-476. -/
def normDrill (p : JVal) : Except String JVal :=
  let nd0 := getProp p "nextDrill"
  let p1 :=
    if truthyU nd0 ∧ isObjTypeU nd0 then p
    else setProp p "nextDrill" emptyDrillServer
  match getProp p1 "nextDrill" with
  | none => .error "TypeError: cannot read properties of undefined (reading prompt)"
  | some nd =>
    let nd1 := if isStrTypeU (getProp nd "prompt") then nd else setProp nd "prompt" (.str "")
    let nd2 := setProp nd1 "timeboxMinutes"
      (.num (.fin (clampNumber (getProp nd1 "timeboxMinutes") 5 120 15)))
    .ok (setProp p1 "nextDrill" nd2)

/-- The server result normalizer: the statement sequence of `handleGrade`,
`server.js` lines 459-476, on the parsed value. -/
def normalizeServer (parsed : JVal) (maxScore : ℚ) : Except String JVal :=
  (normBooklist (normArrays (normScoreFields parsed maxScore))).bind normDrill

/-- The static-client result normalizer, `grader.js` lines 211-218.
`grader.js` is an ES module, hence strict mode: assigning a property on a
primitive raises a `TypeError` immediately. -/
def normalizeStatic (parsed : JVal) (maxScore : ℚ) : Except String JVal :=
  if ¬objLike parsed then .error "TypeError: cannot create property on a primitive"
  else
    let p1 := setProp parsed "maxScore" (.num (.fin maxScore))
    let n := jsToNumber (getProp p1 "score")
    let n2 := if n.truthyN then n else .fin 0
    let p2 := setProp p1 "score" (.num (jsMax (.fin 0) (jsMin (.fin maxScore) n2)))
    .ok (normArrays p2)

/-- The server parse-failure fallback result, `server.js` lines 443-456. -/
def serverFallbackResult (maxScore : ℚ) : JVal :=
  .obj [("score", .num (.fin 0)), ("maxScore", .num (.fin maxScore)),
        ("rationale", .str "模型回傳格式不是 JSON，請重試。"),
        ("strengths", .arr [] []), ("missingPoints", .arr [] []),
        ("improvements", .arr [] []), ("suggestedOutline", .arr [] []),
        ("booklistAlignment", emptyBooklist),
        ("nextDrill", emptyDrillServer)]

/-- The static-client parse-failure fallback, `grader.js` lines 201-208:
only `score`, `maxScore`, `rationale` and the raw text — no array fields,
no `booklistAlignment`, no `nextDrill`, and the raw text sits inside the
result object. -/
def staticFallbackResult (maxScore : ℚ) (raw : JVal) : JVal :=
  .obj [("score", .num (.fin 0)), ("maxScore", .num (.fin maxScore)),
        ("rationale", .str "AI 回傳格式無法解析，請重試。"), ("raw", raw)]

/-- The grading tail of `handleGrade`, `server.js` lines 441-478: extract,
fall back on a falsy parse, otherwise normalize; the raw reply text is
returned alongside in both cases. -/
def handleGradeResult (raw : String) (maxScore : ℚ) : Except String (JVal × String) :=
  let parsed := safeJsonParse raw
  if ¬truthy parsed then .ok (serverFallbackResult maxScore, raw)
  else (normalizeServer parsed maxScore).map (fun r => (r, raw))

/-- The grading tail of `gradeAnswer`, `grader.js` lines 199-220.  The raw
value is whatever the adapter returned (always defined); the fallback
return carries no top-level `raw`, the success return does. -/
def gradeAnswerResult (raw : JVal) (maxScore : ℚ) : Except String (JVal × Option JVal) :=
  let parsed := safeJsonParseU (some raw)
  if ¬truthy parsed then .ok (staticFallbackResult maxScore raw, none)
  else (normalizeStatic parsed maxScore).map (fun r => (r, some raw))

/-- ASCII lowercase of a string (`String.prototype.toLowerCase` restricted
to the provider names the code compares against). -/
def toLowerStr (s : String) : String := ⟨s.toList.map Char.toLower⟩

/-- `normalizeProvider`, `server.js` lines 148-156. -/
def normalizeProvider (value : JValU) : String :=
  let v := jsTrim (toLowerStr (if truthyU value then jsToStringU value else ""))
  if v = "anthropic" then "claude"
  else if v = "gemini" then "google"
  else if v = "google" then "google"
  else if v = "openai" then "openai"
  else if v = "claude" then "claude"
  else "openai"

/-- Which provider adapter a grading request is dispatched to. -/
inductive ProviderTag where
  | openai
  | google
  | claude
deriving DecidableEq, Repr

/-- Server-side routing: `normalizeProvider` (line 398) followed by the
dispatch chain of `handleGrade`, lines 434-440. -/
def serverRoute (value : JValU) : ProviderTag :=
  let p := normalizeProvider value
  if p = "google" then .google else if p = "claude" then .claude else .openai

/-- Static-client routing, `grader.js` lines 191-197: strict string
comparison, anything else falls to the OpenAI call. -/
def staticRoute : JValU → ProviderTag
  | some (.str "google") => .google
  | some (.str "claude") => .claude
  | _ => .openai

/-- `data?.error?.message || default` of the non-ok branches. -/
def errMsgOf (data : JVal) (dflt : String) : String :=
  match getPropU (getProp data "error") "message" with
  | some m => if truthy m then jsToStringV m else dflt
  | none => dflt

/-- Concatenated text of `parts.map(p => p?.text).filter(Boolean).join("")`
(server-side Google/Claude extraction). -/
def partsTextServer (parts : JValU) : Option String :=
  match parts with
  | some (.arr xs _) =>
    some (String.join ((xs.map (fun p => getProp p "text")).filterMap
      (fun t => if truthyU t then some (jsToStringU t) else none)))
  | _ => none

/-- Concatenated text of `parts.map(p => p?.text).join("")` (static-client
extraction: no `filter(Boolean)`; `join` renders `undefined`/`null` empty). -/
def partsTextStatic (xs : List JVal) : String :=
  String.join (xs.map (fun p =>
    match getProp p "text" with
    | none => ""
    | some .null => ""
    | some v => jsToStringV v))

/-- `String.prototype.startsWith` (list-based so concrete runs reduce in
the kernel). -/
def jsStartsWith (pre s : String) : Bool := pre.toList.isPrefixOf s.toList

/-- `callOpenAI`, `server.js` lines 185-219, with the network round trip
replaced by its observable outcome (`ok`, `status`, response body `data`);
`envKey` stands for `process.env.OPENAI_API_KEY`. -/
def callOpenAIServer (apiKey : String) (envKey : Option String) (ok : Bool)
    (status : ℚ) (data : JVal) : Except String String :=
  let resolvedKey : Option String :=
    if jsTrim apiKey ≠ "" then some (jsTrim apiKey) else envKey
  match resolvedKey with
  | none => .error "Missing OpenAI API key (set env OPENAI_API_KEY or input it in the UI)"
  | some k =>
    if k = "" then .error "Missing OpenAI API key (set env OPENAI_API_KEY or input it in the UI)"
    else if ¬(jsStartsWith "sk-" k) ∨ k.length < 20 then
      .error "OpenAI API key format looks invalid"
    else if ¬ok then
      .error (errMsgOf data ("OpenAI API error (" ++ numToString (.fin status) ++ ")"))
    else
      match getPropU (getPropU (getIdxU (getProp data "choices") 0) "message") "content" with
      | some (.str c) =>
        if jsTrim c = "" then .error "OpenAI API returned empty content" else .ok c
      | _ => .error "OpenAI API returned empty content"

/-- `callGoogle`, `server.js` lines 231-268, response handling (`envKey`
stands for `GOOGLE_API_KEY || GEMINI_API_KEY`; the URL construction and
model sanitation do not affect the response handling modelled here). -/
def callGoogleServer (apiKey : String) (envKey : Option String) (ok : Bool)
    (status : ℚ) (data : JVal) : Except String String :=
  let resolvedKey : Option String :=
    if jsTrim apiKey ≠ "" then some (jsTrim apiKey) else envKey
  match resolvedKey with
  | none => .error "Missing Google API key (set env GOOGLE_API_KEY/GEMINI_API_KEY or input it in the UI)"
  | some k =>
    if k = "" then .error "Missing Google API key (set env GOOGLE_API_KEY/GEMINI_API_KEY or input it in the UI)"
    else if ¬ok then
      .error (errMsgOf data ("Google API error (" ++ numToString (.fin status) ++ ")"))
    else
      let ptxt := partsTextServer (getPropU (getPropU (getIdxU (getProp data "candidates") 0)
        "content") "parts")
      match ptxt with
      | some t => if jsTrim t = "" then .error "Google API returned empty content" else .ok t
      | none => .error "Google API returned empty content"

/-- `callClaude`, `server.js` lines 270-307, response handling (`envKey`
stands for `ANTHROPIC_API_KEY`). -/
def callClaudeServer (apiKey : String) (envKey : Option String) (ok : Bool)
    (status : ℚ) (data : JVal) : Except String String :=
  let resolvedKey : Option String :=
    if jsTrim apiKey ≠ "" then some (jsTrim apiKey) else envKey
  match resolvedKey with
  | none => .error "Missing Anthropic API key (set env ANTHROPIC_API_KEY or input it in the UI)"
  | some k =>
    if k = "" then .error "Missing Anthropic API key (set env ANTHROPIC_API_KEY or input it in the UI)"
    else if k.length < 20 then .error "Anthropic API key format looks invalid"
    else if ¬ok then
      .error (errMsgOf data ("Anthropic API error (" ++ numToString (.fin status) ++ ")"))
    else
      match partsTextServer (getProp data "content") with
      | some t => if jsTrim t = "" then .error "Anthropic API returned empty content" else .ok t
      | none => .error "Anthropic API returned empty content"

/-- `callOpenAI`, `grader.js` lines 87-109: no trim/shape check on the key,
and the extracted content is returned as `content || ""` with no
empty-reply check. -/
def callOpenAIStatic (apiKey : JValU) (ok : Bool) (status : ℚ) (data : JVal) :
    Except String JVal :=
  if ¬truthyU apiKey then .error "Missing OpenAI API key"
  else if ¬ok then
    .error (errMsgOf data ("OpenAI API error (" ++ numToString (.fin status) ++ ")"))
  else
    match getPropU (getPropU (getIdxU (getProp data "choices") 0) "message") "content" with
    | some c => if truthy c then .ok c else .ok (.str "")
    | none => .ok (.str "")

/-- `callGoogle`, `grader.js` lines 111-140: returns the joined parts text
or `""`, with no empty-reply check. -/
def callGoogleStatic (apiKey : JValU) (ok : Bool) (status : ℚ) (data : JVal) :
    Except String JVal :=
  if ¬truthyU apiKey then .error "Missing Google API key"
  else if ¬ok then
    .error (errMsgOf data ("Google API error (" ++ numToString (.fin status) ++ ")"))
  else
    match getPropU (getPropU (getIdxU (getProp data "candidates") 0) "content") "parts" with
    | some (.arr xs _) => .ok (.str (partsTextStatic xs))
    | _ => .ok (.str "")

/-- `callClaude`, `grader.js` lines 142-177: returns the joined parts text
or `""`, with no empty-reply check. -/
def callClaudeStatic (apiKey : JValU) (ok : Bool) (status : ℚ) (data : JVal) :
    Except String JVal :=
  if ¬truthyU apiKey then .error "Missing Anthropic API key"
  else if ¬ok then
    .error (errMsgOf data ("Anthropic API error (" ++ numToString (.fin status) ++ ")"))
  else
    match getProp data "content" with
    | some (.arr xs _) => .ok (.str (partsTextStatic xs))
    | _ => .ok (.str "")

/-- A question record as the prompt builder reads it (`section`, `text`,
optional `booklistTopics`; an absent topic list and an empty one behave
identically in the builder, so both are the empty list). -/
structure Question where
  sectionLabel : String
  text : String
  booklistTopics : List String

/-- A chat message (`role` is the literal `"system"` or `"user"`). -/
structure ChatMsg where
  role : String
  content : String

/-- `Array.prototype.join(sep)` on a list of strings. -/
def joinSep (sep : String) : List String → String
  | [] => ""
  | [x] => x
  | x :: tl => x ++ sep ++ joinSep sep tl

/-- The fixed system instruction block of the server builder
(`server.js` lines 343-349). -/
def systemMsgServer : String :=
  "你是博士班資格考『研究法』閱卷老師，目標是幫考生用考試取向提升得分。\n" ++
  "請使用繁體中文回覆。\n" ++
  "你只能引用/建議回頭閱讀『官方書單對照』中出現的參考來源；不要自行杜撰書目或章節。\n" ++
  "評分重點：概念正確、對齊配分、結構清楚、能舉例或情境化。\n" ++
  "輸出必須是 JSON（不要 Markdown、不要多餘文字）。"

/-- The fixed system instruction block of the static builder
(`grader.js` lines 40-45). -/
def systemMsgStatic : String :=
  "你是博士班資格考『研究法』閱卷老師，目標是幫考生用考試取向提升得分。\n" ++
  "請使用繁體中文回覆。\n" ++
  "評分重點：概念正確、對齊配分、結構清楚、能舉例或情境化。\n" ++
  "輸出必須是 JSON（不要 Markdown、不要多餘文字）。"

/-- `JSON.stringify(outputContract, null, 2)` for the server's output
contract literal (`server.js` lines 367-383): a fixed string. -/
def outputContractServer : String :=
  "\x7b\n" ++
  "  \"score\": \"number (0..maxScore, preferably integer)\",\n" ++
  "  \"maxScore\": \"number\",\n" ++
  "  \"rationale\": \"string (總評，100~200字)\",\n" ++
  "  \"strengths\": \"string[]\",\n" ++
  "  \"missingPoints\": \"string[]\",\n" ++
  "  \"improvements\": \"string[]\",\n" ++
  "  \"suggestedOutline\": \"string[] (用可直接抄寫的答題段落骨架)\",\n" ++
  "  \"booklistAlignment\": \x7b\n" ++
  "    \"topics\": \"string[] (從題目對應主題挑)\",\n" ++
  "    \"refsToReview\": \"string[] (只能從官方書單對照出現過的條目挑)\"\n" ++
  "  \x7d,\n" ++
  "  \"nextDrill\": \x7b\n" ++
  "    \"prompt\": \"string (下一題練習題，請你出一題同題型但換情境的題目)\",\n" ++
  "    \"timeboxMinutes\": \"number (建議練習時間)\"\n" ++
  "  \x7d\n" ++
  "\x7d"

/-- `JSON.stringify(outputContract, null, 2)` for the static client's
output contract literal (`grader.js` lines 60-72): no `booklistAlignment`. -/
def outputContractStatic : String :=
  "\x7b\n" ++
  "  \"score\": \"number (0..maxScore, preferably integer)\",\n" ++
  "  \"maxScore\": \"number\",\n" ++
  "  \"rationale\": \"string (總評，100~200字)\",\n" ++
  "  \"strengths\": \"string[]\",\n" ++
  "  \"missingPoints\": \"string[]\",\n" ++
  "  \"improvements\": \"string[]\",\n" ++
  "  \"suggestedOutline\": \"string[] (用可直接抄寫的答題段落骨架)\",\n" ++
  "  \"nextDrill\": \x7b\n" ++
  "    \"prompt\": \"string (下一題練習題，請你出一題同題型但換情境的題目)\",\n" ++
  "    \"timeboxMinutes\": \"number (建議練習時間)\"\n" ++
  "  \x7d\n" ++
  "\x7d"

/-- The closing instruction line appended by both builders. -/
def closingLine : String :=
  "\n【要求】score 不得超過 maxScore；若答案明顯離題/錯誤，請直接點出並給最短可補救版本。"

/-- The user-message part that carries the answer text. -/
def answerPart (answer : String) : String := "\n【考生答案】\n" ++ answer

/-- The user-message part that carries the question header and body.  The
interpolated `maxScore` is rendered by JS number-to-string conversion. -/
def headerPart (q : Question) (maxScore : ℚ) : String :=
  "【題目｜" ++ q.sectionLabel ++ "｜" ++ numToString (.fin maxScore) ++ " 分】\n" ++ q.text

/-- `buildGradingMessages`, `server.js` lines 342-392. -/
def buildGradingMessages (q : Question) (answer : String) (maxScore : ℚ)
    (elapsedSeconds : Option JNum) (notesSnippet booklistSnippet : Option String) :
    List ChatMsg :=
  let userParts : List String :=
    [headerPart q maxScore] ++
    (if q.booklistTopics.isEmpty then []
     else ["\n【題目對應書單主題】\n- " ++ joinSep "\n- " q.booklistTopics]) ++
    (match elapsedSeconds with
     | some n => ["\n【作答時間】\n" ++ numToString n ++ " 秒（僅供參考）"]
     | none => []) ++
    [answerPart answer] ++
    (match notesSnippet with
     | some s => if s = "" then [] else ["\n【本專案重點筆記（校正用；不要逐字引用）】\n" ++ s]
     | none => []) ++
    (match booklistSnippet with
     | some s => if s = "" then [] else ["\n【官方書單對照（可引用；不可杜撰）】\n" ++ s]
     | none => []) ++
    ["\n【輸出格式（必須符合）】\n" ++ outputContractServer, closingLine]
  [⟨"system", systemMsgServer⟩, ⟨"user", joinSep "\n\n" userParts⟩]

/-- `buildGradingMessages`, `grader.js` lines 36-81 (static client: no
notes/booklist snippets, its own contract literal and system block). -/
def buildGradingMessagesStatic (q : Question) (answer : String) (maxScore : ℚ)
    (elapsedSeconds : Option JNum) : List ChatMsg :=
  let userParts : List String :=
    [headerPart q maxScore] ++
    (if q.booklistTopics.isEmpty then []
     else ["\n【題目對應書單主題】\n- " ++ joinSep "\n- " q.booklistTopics]) ++
    (match elapsedSeconds with
     | some n => ["\n【作答時間】\n" ++ numToString n ++ " 秒（僅供參考）"]
     | none => []) ++
    [answerPart answer] ++
    ["\n【輸出格式（必須符合）】\n" ++ outputContractStatic, closingLine]
  [⟨"system", systemMsgStatic⟩, ⟨"user", joinSep "\n\n" userParts⟩]

/-- Array-shaped values pass through unchanged; everything else becomes the
empty array (the `Array.isArray` guards of the normalizer). -/
def arrOrEmpty : JValU → JVal
  | some (.arr xs ps) => .arr xs ps
  | _ => .arr [] []

/-- What the server normalizer leaves in a `booklistAlignment` field slot,
as a function of the incoming `booklistAlignment` value. -/
def baFieldAfter (u : JValU) (k : String) : JVal :=
  match u with
  | some ba => if truthy ba ∧ isObjTypeU (some ba) then arrOrEmpty (getProp ba k) else .arr [] []
  | none => .arr [] []

/-- The score the server normalizer computes: the incoming value only
counts when it is a number-typed finite value (strings and booleans are
not coerced), and is then clamped. -/
def serverScoreVal (u : JValU) (maxScore : ℚ) : ℚ :=
  match u with
  | some (.num (.fin q)) => max 0 (min maxScore q)
  | _ => max 0 (min maxScore 0)

/-- The score the static normalizer computes: `Number`-coerce, `|| 0`
(which zeroes `NaN` but lets the infinities through to the clamp), clamp. -/
def staticScoreVal (u : JValU) (maxScore : ℚ) : JNum :=
  let n := jsToNumber u
  let n2 := if n.truthyN then n else .fin 0
  jsMax (.fin 0) (jsMin (.fin maxScore) n2)

/-- The score the spec's words ascribe to the normalizer.  Modelled from
the spec: "Coerce `score` to a number; if not finite, treat as 0; then
clamp to `[0, maxScore]`" — stated here only to compare against the
behavior of the source. -/
def specScore (u : JValU) (maxScore : ℚ) : ℚ :=
  let q : ℚ :=
    match jsToNumber u with
    | .fin x => x
    | _ => 0
  max 0 (min maxScore q)

/-- Whether the spec's words call every element of an array-field value a
string (used to state the claim the source falsifies). -/
def isStringArray : JVal → Bool
  | .arr xs _ => xs.all (fun v => match v with | .str _ => true | _ => false)
  | _ => false

/-- The provider selectors the server's `normalizeProvider` recognizes. -/
def recognizedProviders : List String :=
  ["anthropic", "gemini", "google", "openai", "claude"]

/-- The canonical selector string `normalizeProvider` switches on. -/
def canonProvider (value : JValU) : String :=
  jsTrim (toLowerStr (if truthyU value then jsToStringU value else ""))

/-- The fenced wrapper of the round-trip claim:
`"```json\n" + s + "\n```"`. -/
def fenceText (s : List Char) : List Char :=
  "```json\n".toList ++ s ++ "\n```".toList

/-- The condition under which the server adapters raise their
empty-content error: the extracted value is not a string whose trim is
non-empty (`typeof content !== "string" || !content.trim()`). -/
def emptyTextU : JValU → Bool
  | some (.str s) => jsTrim s = ""
  | _ => true

/-- The same condition for the joined-parts extraction
(`typeof text !== "string" || !text.trim()` where `text` may be `null`). -/
def emptyTextS : Option String → Bool
  | some s => jsTrim s = ""
  | none => true

/-- What the server normalizer leaves in the `nextDrill` slot, as a
function of the incoming `nextDrill` value: the wholesale replacement is
`{ prompt: "", timeboxMinutes: 10 }` (and the later clamp keeps the 10);
a kept object gets its `prompt` blanked unless string-typed and its
`timeboxMinutes` clamped to `[5,120]` with fallback 15. -/
def drillAfter (u : JValU) : JVal :=
  match u with
  | some nd =>
    if truthy nd ∧ isObjTypeU (some nd) then
      let nd1 := if isStrTypeU (getProp nd "prompt") then nd else setProp nd "prompt" (.str "")
      setProp nd1 "timeboxMinutes"
        (.num (.fin (clampNumber (getProp nd1 "timeboxMinutes") 5 120 15)))
    else emptyDrillServer
  | none => emptyDrillServer


/-! ### Lemma base: property reads and writes -/

theorem lookupField_setField_same (fs : List (String × JVal)) (k : String) (v : JVal) :
    lookupField (setField fs k v) k = some v := by
  induction fs with
  | nil => simp [setField, lookupField]
  | cons hd tl ih =>
    obtain ⟨k1, v1⟩ := hd
    by_cases h : k1 = k
    · simp [setField, h, lookupField]
    · simp [setField, h, lookupField, ih]

theorem lookupField_setField_ne (fs : List (String × JVal)) (k k2 : String) (v : JVal)
    (h : k ≠ k2) : lookupField (setField fs k v) k2 = lookupField fs k2 := by
  induction fs with
  | nil => simp [setField, lookupField, h]
  | cons hd tl ih =>
    obtain ⟨k1, v1⟩ := hd
    by_cases h1 : k1 = k
    · subst h1
      simp [setField, lookupField, h]
    · simp [setField, h1, lookupField, ih]

theorem getProp_setProp_same (w : JVal) (k : String) (v : JVal) (h : objLike w = true) :
    getProp (setProp w k v) k = some v := by
  cases w <;> simp_all [objLike, setProp, getProp, lookupField_setField_same]

theorem getProp_setProp_ne (w : JVal) (k k2 : String) (v : JVal) (h : k ≠ k2) :
    getProp (setProp w k v) k2 = getProp w k2 := by
  cases w <;> simp [setProp, getProp, lookupField_setField_ne _ _ _ _ h]

theorem objLike_setProp (w : JVal) (k : String) (v : JVal) :
    objLike (setProp w k v) = objLike w := by
  cases w <;> rfl

/-! ### Lemma base: the server normalizer, stage by stage -/

theorem objLike_normScoreFields (p : JVal) (m : ℚ) :
    objLike (normScoreFields p m) = objLike p := by
  simp only [normScoreFields]
  split <;> simp [objLike_setProp]

theorem getProp_normScoreFields_maxScore (p : JVal) (m : ℚ) (h : objLike p = true) :
    getProp (normScoreFields p m) "maxScore" = some (.num (.fin m)) := by
  have hne : ("score" : String) ≠ "maxScore" := by decide
  simp only [normScoreFields]
  split
  · rw [getProp_setProp_ne _ _ _ _ hne, getProp_setProp_same _ _ _ h]
  · rw [getProp_setProp_ne _ _ _ _ hne, getProp_setProp_ne _ _ _ _ hne,
      getProp_setProp_same _ _ _ h]

theorem getProp_normScoreFields_score (p : JVal) (m : ℚ) (h : objLike p = true) :
    getProp (normScoreFields p m) "score" =
      some (.num (.fin (serverScoreVal (getProp p "score") m))) := by
  have hne : ("maxScore" : String) ≠ "score" := by decide
  have h1 : objLike (setProp p "maxScore" (JVal.num (JNum.fin m))) = true := by
    rw [objLike_setProp]; exact h
  have hget : getProp (setProp p "maxScore" (JVal.num (JNum.fin m))) "score" =
      getProp p "score" := getProp_setProp_ne _ _ _ _ hne
  simp only [normScoreFields, hget]
  split
  · next hok =>
    rw [getProp_setProp_same _ _ _ h1, hget]
    cases hv : getProp p "score" with
    | none => rw [hv] at hok; simp at hok
    | some v =>
      rw [hv] at hok
      cases v with
      | num n =>
        cases n with
        | fin q =>
          simp [jsToNumber, jsMin, jsMax, serverScoreVal, hv]
        | nan => simp at hok
        | posInf => simp at hok
        | negInf => simp at hok
      | null => simp at hok
      | bool b => simp at hok
      | str s => simp at hok
      | arr xs ps => simp at hok
      | obj fs => simp at hok
  · next hok =>
    have h2 : objLike (setProp (setProp p "maxScore" (JVal.num (JNum.fin m))) "score"
        (JVal.num (JNum.fin 0))) = true := by
      rw [objLike_setProp]; exact h1
    rw [getProp_setProp_same _ _ _ h2, getProp_setProp_same _ _ _ h1]
    cases hv : getProp p "score" with
    | none => simp [jsToNumber, jsMin, jsMax, serverScoreVal, hv]
    | some v =>
      rw [hv] at hok
      cases v with
      | num n =>
        cases n with
        | fin q => simp at hok
        | nan => simp [jsToNumber, jsMin, jsMax, serverScoreVal, hv]
        | posInf => simp [jsToNumber, jsMin, jsMax, serverScoreVal, hv]
        | negInf => simp [jsToNumber, jsMin, jsMax, serverScoreVal, hv]
      | null => simp [jsToNumber, jsMin, jsMax, serverScoreVal, hv]
      | bool b => simp [jsToNumber, jsMin, jsMax, serverScoreVal, hv]
      | str s => simp [jsToNumber, jsMin, jsMax, serverScoreVal, hv]
      | arr xs ps => simp [jsToNumber, jsMin, jsMax, serverScoreVal, hv]
      | obj fs => simp [jsToNumber, jsMin, jsMax, serverScoreVal, hv]

theorem getProp_normScoreFields_other (p : JVal) (m : ℚ) (k : String)
    (h1 : k ≠ "score") (h2 : k ≠ "maxScore") :
    getProp (normScoreFields p m) k = getProp p k := by
  simp only [normScoreFields]
  split
  · rw [getProp_setProp_ne _ _ _ _ (Ne.symm h1), getProp_setProp_ne _ _ _ _ (Ne.symm h2)]
  · rw [getProp_setProp_ne _ _ _ _ (Ne.symm h1), getProp_setProp_ne _ _ _ _ (Ne.symm h1),
      getProp_setProp_ne _ _ _ _ (Ne.symm h2)]

theorem objLike_normArrField (p : JVal) (k : String) :
    objLike (normArrField p k) = objLike p := by
  simp only [normArrField]
  split
  · rfl
  · rw [objLike_setProp]

theorem getProp_normArrField_same (p : JVal) (k : String) (h : objLike p = true) :
    getProp (normArrField p k) k = some (arrOrEmpty (getProp p k)) := by
  simp only [normArrField]
  split
  · next ha =>
    cases hv : getProp p k with
    | none => rw [hv] at ha; simp [isArrU] at ha
    | some v =>
      rw [hv] at ha
      cases v <;> simp_all [isArrU, arrOrEmpty]
  · next ha =>
    rw [getProp_setProp_same _ _ _ h]
    cases hv : getProp p k with
    | none => simp [arrOrEmpty]
    | some v =>
      rw [hv] at ha
      cases v <;> simp_all [isArrU, arrOrEmpty]

theorem getProp_normArrField_ne (p : JVal) (k k2 : String) (h : k ≠ k2) :
    getProp (normArrField p k) k2 = getProp p k2 := by
  simp only [normArrField]
  split
  · rfl
  · rw [getProp_setProp_ne _ _ _ _ h]

theorem objLike_normArrays (p : JVal) :
    objLike (normArrays p) = objLike p := by
  simp [normArrays, objLike_normArrField]

theorem getProp_normArrays_strengths (p : JVal) (h : objLike p = true) :
    getProp (normArrays p) "strengths" = some (arrOrEmpty (getProp p "strengths")) := by
  simp only [normArrays]
  rw [getProp_normArrField_ne _ _ _ (by decide), getProp_normArrField_ne _ _ _ (by decide),
    getProp_normArrField_ne _ _ _ (by decide), getProp_normArrField_same _ _ h]

theorem getProp_normArrays_missingPoints (p : JVal) (h : objLike p = true) :
    getProp (normArrays p) "missingPoints" = some (arrOrEmpty (getProp p "missingPoints")) := by
  simp only [normArrays]
  rw [getProp_normArrField_ne _ _ _ (by decide), getProp_normArrField_ne _ _ _ (by decide),
    getProp_normArrField_same _ _ (by rw [objLike_normArrField]; exact h),
    getProp_normArrField_ne _ _ _ (by decide)]

theorem getProp_normArrays_improvements (p : JVal) (h : objLike p = true) :
    getProp (normArrays p) "improvements" = some (arrOrEmpty (getProp p "improvements")) := by
  simp only [normArrays]
  rw [getProp_normArrField_ne _ _ _ (by decide),
    getProp_normArrField_same _ _ (by rw [objLike_normArrField, objLike_normArrField]; exact h),
    getProp_normArrField_ne _ _ _ (by decide), getProp_normArrField_ne _ _ _ (by decide)]

theorem getProp_normArrays_suggestedOutline (p : JVal) (h : objLike p = true) :
    getProp (normArrays p) "suggestedOutline" =
      some (arrOrEmpty (getProp p "suggestedOutline")) := by
  simp only [normArrays]
  rw [getProp_normArrField_same _ _ (by
        rw [objLike_normArrField, objLike_normArrField, objLike_normArrField]; exact h),
    getProp_normArrField_ne _ _ _ (by decide), getProp_normArrField_ne _ _ _ (by decide),
    getProp_normArrField_ne _ _ _ (by decide)]

theorem getProp_normArrays_other (p : JVal) (k : String)
    (h1 : k ≠ "strengths") (h2 : k ≠ "missingPoints") (h3 : k ≠ "improvements")
    (h4 : k ≠ "suggestedOutline") :
    getProp (normArrays p) k = getProp p k := by
  simp only [normArrays]
  rw [getProp_normArrField_ne _ _ _ (Ne.symm h4), getProp_normArrField_ne _ _ _ (Ne.symm h3),
    getProp_normArrField_ne _ _ _ (Ne.symm h2), getProp_normArrField_ne _ _ _ (Ne.symm h1)]

theorem objLike_of_truthy_objType {ba : JVal} (ht : truthy ba = true)
    (hob : isObjTypeU (some ba) = true) : objLike ba = true := by
  cases ba <;> simp_all [truthy, isObjTypeU, objLike]

theorem normBooklist_ok (p : JVal) (h : objLike p = true) :
    ∃ r ba2, normBooklist p = Except.ok r ∧ objLike r = true ∧
      getProp r "booklistAlignment" = some ba2 ∧
      getProp ba2 "topics" = some (baFieldAfter (getProp p "booklistAlignment") "topics") ∧
      getProp ba2 "refsToReview" =
        some (baFieldAfter (getProp p "booklistAlignment") "refsToReview") ∧
      ∀ k, k ≠ "booklistAlignment" → getProp r k = getProp p k := by
  by_cases hc : truthyU (getProp p "booklistAlignment") = true ∧
      isObjTypeU (getProp p "booklistAlignment") = true
  · obtain ⟨ht, hob⟩ := hc
    cases hba : getProp p "booklistAlignment" with
    | none => rw [hba] at ht; simp [truthyU] at ht
    | some ba =>
      rw [hba] at ht hob
      have ht2 : truthy ba = true := by simpa [truthyU] using ht
      have hobj : objLike ba = true := objLike_of_truthy_objType ht2 hob
      have hcond : truthyU (some ba) = true ∧ isObjTypeU (some ba) = true := ⟨ht, hob⟩
      simp only [normBooklist, hba, if_pos hcond]
      by_cases hta : isArrU (getProp ba "topics") = true
      · by_cases hra : isArrU (getProp ba "refsToReview") = true
        · refine ⟨_, ba, by simp [hta, hra], ?_, getProp_setProp_same _ _ _ h, ?_, ?_, ?_⟩
          · rw [objLike_setProp]; exact h
          · simp only [baFieldAfter, if_pos hcond]
            cases hv : getProp ba "topics" with
            | none => rw [hv] at hta; simp [isArrU] at hta
            | some v => rw [hv] at hta; cases v <;> simp_all [isArrU, arrOrEmpty]
          · simp only [baFieldAfter, if_pos hcond]
            cases hv : getProp ba "refsToReview" with
            | none => rw [hv] at hra; simp [isArrU] at hra
            | some v => rw [hv] at hra; cases v <;> simp_all [isArrU, arrOrEmpty]
          · intro k hk
            rw [getProp_setProp_ne _ _ _ _ (Ne.symm hk)]
        · refine ⟨_, setProp ba "refsToReview" (.arr [] []), by simp [hta, hra], ?_,
            getProp_setProp_same _ _ _ h, ?_, ?_, ?_⟩
          · rw [objLike_setProp]; exact h
          · rw [getProp_setProp_ne _ _ _ _ (by decide)]
            simp only [baFieldAfter, if_pos hcond]
            cases hv : getProp ba "topics" with
            | none => rw [hv] at hta; simp [isArrU] at hta
            | some v => rw [hv] at hta; cases v <;> simp_all [isArrU, arrOrEmpty]
          · rw [getProp_setProp_same _ _ _ hobj]
            simp only [baFieldAfter, if_pos hcond]
            cases hv : getProp ba "refsToReview" with
            | none => simp [arrOrEmpty]
            | some v => rw [hv] at hra; cases v <;> simp_all [isArrU, arrOrEmpty]
          · intro k hk
            rw [getProp_setProp_ne _ _ _ _ (Ne.symm hk)]
      · have hobj1 : objLike (setProp ba "topics" (JVal.arr [] [])) = true := by
          rw [objLike_setProp]; exact hobj
        have hrefs : getProp (setProp ba "topics" (JVal.arr [] [])) "refsToReview" =
            getProp ba "refsToReview" := getProp_setProp_ne _ _ _ _ (by decide)
        by_cases hra : isArrU (getProp ba "refsToReview") = true
        · refine ⟨_, setProp ba "topics" (.arr [] []), by simp [hta, hra, hrefs], ?_,
            getProp_setProp_same _ _ _ h, ?_, ?_, ?_⟩
          · rw [objLike_setProp]; exact h
          · rw [getProp_setProp_same _ _ _ hobj]
            simp only [baFieldAfter, if_pos hcond]
            cases hv : getProp ba "topics" with
            | none => simp [arrOrEmpty]
            | some v => rw [hv] at hta; cases v <;> simp_all [isArrU, arrOrEmpty]
          · rw [hrefs]
            simp only [baFieldAfter, if_pos hcond]
            cases hv : getProp ba "refsToReview" with
            | none => rw [hv] at hra; simp [isArrU] at hra
            | some v => rw [hv] at hra; cases v <;> simp_all [isArrU, arrOrEmpty]
          · intro k hk
            rw [getProp_setProp_ne _ _ _ _ (Ne.symm hk)]
        · refine ⟨_, setProp (setProp ba "topics" (.arr [] [])) "refsToReview" (.arr [] []),
            by simp [hta, hra, hrefs], ?_, getProp_setProp_same _ _ _ h, ?_, ?_, ?_⟩
          · rw [objLike_setProp]; exact h
          · rw [getProp_setProp_ne _ _ _ _ (by decide), getProp_setProp_same _ _ _ hobj]
            simp only [baFieldAfter, if_pos hcond]
            cases hv : getProp ba "topics" with
            | none => simp [arrOrEmpty]
            | some v => rw [hv] at hta; cases v <;> simp_all [isArrU, arrOrEmpty]
          · rw [getProp_setProp_same _ _ _ hobj1]
            simp only [baFieldAfter, if_pos hcond]
            cases hv : getProp ba "refsToReview" with
            | none => simp [arrOrEmpty]
            | some v => rw [hv] at hra; cases v <;> simp_all [isArrU, arrOrEmpty]
          · intro k hk
            rw [getProp_setProp_ne _ _ _ _ (Ne.symm hk)]
  · have hset : getProp (setProp p "booklistAlignment" emptyBooklist) "booklistAlignment" =
        some emptyBooklist := getProp_setProp_same _ _ _ h
    refine ⟨setProp (setProp p "booklistAlignment" emptyBooklist) "booklistAlignment"
      emptyBooklist, emptyBooklist, ?_, ?_, ?_, ?_, ?_, ?_⟩
    · simp only [normBooklist, if_neg hc, hset]
      rfl
    · rw [objLike_setProp, objLike_setProp]; exact h
    · exact getProp_setProp_same _ _ _ (by rw [objLike_setProp]; exact h)
    · cases hba : getProp p "booklistAlignment" with
      | none => rfl
      | some ba =>
        have : ¬(truthy ba = true ∧ isObjTypeU (some ba) = true) := by
          rw [hba] at hc; exact hc
        simp only [baFieldAfter, if_neg this]
        rfl
    · cases hba : getProp p "booklistAlignment" with
      | none => rfl
      | some ba =>
        have : ¬(truthy ba = true ∧ isObjTypeU (some ba) = true) := by
          rw [hba] at hc; exact hc
        simp only [baFieldAfter, if_neg this]
        rfl
    · intro k hk
      rw [getProp_setProp_ne _ _ _ _ (Ne.symm hk), getProp_setProp_ne _ _ _ _ (Ne.symm hk)]

theorem normDrill_ok (p : JVal) (h : objLike p = true) :
    ∃ r, normDrill p = Except.ok r ∧ objLike r = true ∧
      getProp r "nextDrill" = some (drillAfter (getProp p "nextDrill")) ∧
      ∀ k, k ≠ "nextDrill" → getProp r k = getProp p k := by
  by_cases hc : truthyU (getProp p "nextDrill") = true ∧
      isObjTypeU (getProp p "nextDrill") = true
  · obtain ⟨ht, hob⟩ := hc
    cases hba : getProp p "nextDrill" with
    | none => rw [hba] at ht; simp [truthyU] at ht
    | some nd =>
      rw [hba] at ht hob
      have ht2 : truthy nd = true := by simpa [truthyU] using ht
      have hobj : objLike nd = true := objLike_of_truthy_objType ht2 hob
      have hcond : truthyU (some nd) = true ∧ isObjTypeU (some nd) = true := ⟨ht, hob⟩
      have hcond2 : truthy nd = true ∧ isObjTypeU (some nd) = true := ⟨ht2, hob⟩
      refine ⟨setProp p "nextDrill" (drillAfter (some nd)), ?_, ?_, ?_, ?_⟩
      · simp only [normDrill, drillAfter, hba, if_pos hcond, if_pos hcond2]
      · rw [objLike_setProp]; exact h
      · exact getProp_setProp_same _ _ _ h
      · intro k hk
        rw [getProp_setProp_ne _ _ _ _ (Ne.symm hk)]
  · have hset : getProp (setProp p "nextDrill" emptyDrillServer) "nextDrill" =
        some emptyDrillServer := getProp_setProp_same _ _ _ h
    have hpr : isStrTypeU (getProp emptyDrillServer "prompt") = true := by rfl
    have hnd2 : setProp emptyDrillServer "timeboxMinutes"
        (.num (.fin (clampNumber (getProp emptyDrillServer "timeboxMinutes") 5 120 15))) =
        emptyDrillServer := by rfl
    refine ⟨setProp (setProp p "nextDrill" emptyDrillServer) "nextDrill" emptyDrillServer,
      ?_, ?_, ?_, ?_⟩
    · simp only [normDrill, if_neg hc, hset, hpr, if_pos, hnd2]
    · rw [objLike_setProp, objLike_setProp]; exact h
    · rw [getProp_setProp_same _ _ _ (by rw [objLike_setProp]; exact h)]
      cases hba : getProp p "nextDrill" with
      | none => rfl
      | some nd =>
        have : ¬(truthy nd = true ∧ isObjTypeU (some nd) = true) := by
          rw [hba] at hc; exact hc
        simp only [drillAfter, if_neg this]
    · intro k hk
      rw [getProp_setProp_ne _ _ _ _ (Ne.symm hk), getProp_setProp_ne _ _ _ _ (Ne.symm hk)]

theorem serverScoreVal_range (u : JValU) (m : ℚ) (hm : 0 ≤ m) :
    0 ≤ serverScoreVal u m ∧ serverScoreVal u m ≤ m := by
  have hgen : ∀ q : ℚ, 0 ≤ max 0 (min m q) ∧ max 0 (min m q) ≤ m :=
    fun q => ⟨le_max_left 0 _, max_le hm (min_le_left m q)⟩
  unfold serverScoreVal
  rcases u with _ | v
  · exact hgen 0
  · cases v with
    | num n => cases n with
      | fin q => exact hgen q
      | nan => exact hgen 0
      | posInf => exact hgen 0
      | negInf => exact hgen 0
    | null => exact hgen 0
    | bool b => exact hgen 0
    | str s => exact hgen 0
    | arr xs ps => exact hgen 0
    | obj fs => exact hgen 0

theorem staticScoreVal_fin (u : JValU) (m : ℚ) (hm : 0 ≤ m) :
    ∃ q, staticScoreVal u m = .fin q ∧ 0 ≤ q ∧ q ≤ m := by
  have hgen : ∀ q : ℚ, 0 ≤ max 0 (min m q) ∧ max 0 (min m q) ≤ m :=
    fun q => ⟨le_max_left 0 _, max_le hm (min_le_left m q)⟩
  unfold staticScoreVal
  rcases hn : jsToNumber u with q | _ | _ | _
  · by_cases hq : q = 0
    · subst hq
      exact ⟨max 0 (min m 0), by simp [JNum.truthyN, jsMin, jsMax], hgen 0⟩
    · exact ⟨max 0 (min m q), by simp [JNum.truthyN, hq, jsMin, jsMax], hgen q⟩
  · exact ⟨max 0 (min m 0), by simp [JNum.truthyN, jsMin, jsMax], hgen 0⟩
  · refine ⟨max 0 m, by simp [JNum.truthyN, jsMin, jsMax], le_max_left 0 m, max_le hm le_rfl⟩
  · exact ⟨0, by simp [JNum.truthyN, jsMin, jsMax], le_rfl, hm⟩

theorem normalizeServer_ok (p : JVal) (m : ℚ) (h : objLike p = true) :
    ∃ r, normalizeServer p m = Except.ok r ∧
      getProp r "maxScore" = some (.num (.fin m)) ∧
      getProp r "score" = some (.num (.fin (serverScoreVal (getProp p "score") m))) ∧
      getProp r "strengths" = some (arrOrEmpty (getProp p "strengths")) ∧
      getProp r "missingPoints" = some (arrOrEmpty (getProp p "missingPoints")) ∧
      getProp r "improvements" = some (arrOrEmpty (getProp p "improvements")) ∧
      getProp r "suggestedOutline" = some (arrOrEmpty (getProp p "suggestedOutline")) ∧
      (∃ ba2, getProp r "booklistAlignment" = some ba2 ∧
        getProp ba2 "topics" = some (baFieldAfter (getProp p "booklistAlignment") "topics") ∧
        getProp ba2 "refsToReview" =
          some (baFieldAfter (getProp p "booklistAlignment") "refsToReview")) ∧
      getProp r "nextDrill" = some (drillAfter (getProp p "nextDrill")) ∧
      getProp r "rationale" = getProp p "rationale" := by
  have h1 : objLike (normScoreFields p m) = true := by
    rw [objLike_normScoreFields]; exact h
  have h2 : objLike (normArrays (normScoreFields p m)) = true := by
    rw [objLike_normArrays]; exact h1
  obtain ⟨r3, ba2, hb_eq, hb_obj, hb_get, hb_t, hb_r, hb_pass⟩ :=
    normBooklist_ok (normArrays (normScoreFields p m)) h2
  obtain ⟨r4, hd_eq, hd_obj, hd_nd, hd_pass⟩ := normDrill_ok r3 hb_obj
  have harr : ∀ k, k ≠ "strengths" → k ≠ "missingPoints" → k ≠ "improvements" →
      k ≠ "suggestedOutline" → k ≠ "score" → k ≠ "maxScore" →
      getProp (normArrays (normScoreFields p m)) k = getProp p k := by
    intro k a1 a2 a3 a4 a5 a6
    rw [getProp_normArrays_other _ _ a1 a2 a3 a4, getProp_normScoreFields_other _ _ _ a5 a6]
  refine ⟨r4, ?_, ?_, ?_, ?_, ?_, ?_, ?_, ⟨ba2, ?_, ?_, ?_⟩, ?_, ?_⟩
  · show (normBooklist (normArrays (normScoreFields p m))).bind normDrill = Except.ok r4
    rw [hb_eq]
    simpa [Except.bind] using hd_eq
  · rw [hd_pass _ (by decide), hb_pass _ (by decide),
      getProp_normArrays_other _ _ (by decide) (by decide) (by decide) (by decide),
      getProp_normScoreFields_maxScore _ _ h]
  · rw [hd_pass _ (by decide), hb_pass _ (by decide),
      getProp_normArrays_other _ _ (by decide) (by decide) (by decide) (by decide),
      getProp_normScoreFields_score _ _ h]
  · rw [hd_pass _ (by decide), hb_pass _ (by decide), getProp_normArrays_strengths _ h1,
      getProp_normScoreFields_other _ _ _ (by decide) (by decide)]
  · rw [hd_pass _ (by decide), hb_pass _ (by decide), getProp_normArrays_missingPoints _ h1,
      getProp_normScoreFields_other _ _ _ (by decide) (by decide)]
  · rw [hd_pass _ (by decide), hb_pass _ (by decide), getProp_normArrays_improvements _ h1,
      getProp_normScoreFields_other _ _ _ (by decide) (by decide)]
  · rw [hd_pass _ (by decide), hb_pass _ (by decide), getProp_normArrays_suggestedOutline _ h1,
      getProp_normScoreFields_other _ _ _ (by decide) (by decide)]
  · rw [hd_pass _ (by decide)]; exact hb_get
  · rw [harr "booklistAlignment" (by decide) (by decide) (by decide) (by decide)
      (by decide) (by decide)] at hb_t
    exact hb_t
  · rw [harr "booklistAlignment" (by decide) (by decide) (by decide) (by decide)
      (by decide) (by decide)] at hb_r
    exact hb_r
  · rw [hd_nd, hb_pass _ (by decide),
      harr "nextDrill" (by decide) (by decide) (by decide) (by decide) (by decide) (by decide)]
  · rw [hd_pass _ (by decide), hb_pass _ (by decide),
      harr "rationale" (by decide) (by decide) (by decide) (by decide) (by decide) (by decide)]

theorem normalizeStatic_ok (p : JVal) (m : ℚ) (h : objLike p = true) :
    ∃ r, normalizeStatic p m = Except.ok r ∧
      getProp r "maxScore" = some (.num (.fin m)) ∧
      getProp r "score" = some (.num (staticScoreVal (getProp p "score") m)) ∧
      getProp r "strengths" = some (arrOrEmpty (getProp p "strengths")) ∧
      getProp r "missingPoints" = some (arrOrEmpty (getProp p "missingPoints")) ∧
      getProp r "improvements" = some (arrOrEmpty (getProp p "improvements")) ∧
      getProp r "suggestedOutline" = some (arrOrEmpty (getProp p "suggestedOutline")) ∧
      getProp r "booklistAlignment" = getProp p "booklistAlignment" ∧
      getProp r "nextDrill" = getProp p "nextDrill" ∧
      getProp r "rationale" = getProp p "rationale" := by
  have h1 : objLike (setProp p "maxScore" (JVal.num (JNum.fin m))) = true := by
    rw [objLike_setProp]; exact h
  have hs : getProp (setProp p "maxScore" (JVal.num (JNum.fin m))) "score" = getProp p "score" :=
    getProp_setProp_ne _ _ _ _ (by decide)
  have h2 : objLike (setProp (setProp p "maxScore" (JVal.num (JNum.fin m))) "score"
      (JVal.num (staticScoreVal (getProp p "score") m))) = true := by
    rw [objLike_setProp]; exact h1
  have hpass : ∀ k, k ≠ "score" → k ≠ "maxScore" →
      getProp (setProp (setProp p "maxScore" (JVal.num (JNum.fin m))) "score"
        (JVal.num (staticScoreVal (getProp p "score") m))) k = getProp p k := by
    intro k a1 a2
    rw [getProp_setProp_ne _ _ _ _ (Ne.symm a1), getProp_setProp_ne _ _ _ _ (Ne.symm a2)]
  refine ⟨normArrays (setProp (setProp p "maxScore" (JVal.num (JNum.fin m))) "score"
    (JVal.num (staticScoreVal (getProp p "score") m))), ?_, ?_, ?_, ?_, ?_, ?_, ?_, ?_, ?_, ?_⟩
  · simp only [normalizeStatic, h, Bool.not_true, staticScoreVal, hs]
    rfl
  · rw [getProp_normArrays_other _ _ (by decide) (by decide) (by decide) (by decide),
      getProp_setProp_ne _ _ _ _ (by decide), getProp_setProp_same _ _ _ h]
  · rw [getProp_normArrays_other _ _ (by decide) (by decide) (by decide) (by decide),
      getProp_setProp_same _ _ _ h1]
  · rw [getProp_normArrays_strengths _ h2, hpass _ (by decide) (by decide)]
  · rw [getProp_normArrays_missingPoints _ h2, hpass _ (by decide) (by decide)]
  · rw [getProp_normArrays_improvements _ h2, hpass _ (by decide) (by decide)]
  · rw [getProp_normArrays_suggestedOutline _ h2, hpass _ (by decide) (by decide)]
  · rw [getProp_normArrays_other _ _ (by decide) (by decide) (by decide) (by decide),
      hpass _ (by decide) (by decide)]
  · rw [getProp_normArrays_other _ _ (by decide) (by decide) (by decide) (by decide),
      hpass _ (by decide) (by decide)]
  · rw [getProp_normArrays_other _ _ (by decide) (by decide) (by decide) (by decide),
      hpass _ (by decide) (by decide)]

/-! ### Claim C1: score and maxScore normalization -/

/-- C1, counterexample.  The claim says the normalizer coerces the model's
score to a number (clamping afterwards), so a string score `"5"` with
`maxScore = 10` would yield 5; the server normalizer (`server.js` line 460)
instead zeroes every score that is not number-typed, yielding 0. -/
theorem score_not_coerced_counterexample :
    ((normalizeServer (.obj [("score", .str "5")]) 10).map (fun r => getProp r "score")) =
      .ok (some (.num (.fin 0))) ∧
    specScore (some (.str "5")) 10 = 5 ∧
    ¬ ((normalizeServer (.obj [("score", .str "5")]) 10).map (fun r => getProp r "score") =
      .ok (some (.num (.fin (specScore (some (.str "5")) 10))))) := by
  refine ⟨by rfl, by rfl, fun hcontra => ?_⟩
  have h2 : Except.ok (ε := String) (some (JVal.num (JNum.fin 0))) =
      .ok (some (.num (.fin (specScore (some (.str "5")) 10)))) :=
    (by rfl : (normalizeServer (.obj [("score", .str "5")]) 10).map
      (fun r => getProp r "score") = .ok (some (.num (.fin 0)))).symm.trans hcontra
  rw [show specScore (some (.str "5")) 10 = 5 from rfl] at h2
  simp only [Except.ok.injEq, Option.some.injEq, JVal.num.injEq, JNum.fin.injEq] at h2
  norm_num at h2

/-- C1, amended.  For every object-shaped parsed value and non-negative
`maxScore`, both normalizers overwrite `maxScore` with the question's value
and return a score in `[0, maxScore]`; but the server variant
(`server.js` lines 459-461) keeps the model's score only when it is a
number-typed finite value (strings and booleans become 0, uncoerced),
while the static variant (`grader.js` lines 212-213) coerces via `Number`,
zeroing `NaN` but passing the infinities to the clamp (so `+Infinity`
becomes `maxScore`).  Truthy non-object parsed values instead raise
(see C3/C7). -/
theorem normalizer_score_clamped_amended (p : JVal) (m : ℚ)
    (hp : objLike p = true) (hm : 0 ≤ m) :
    (∃ r, normalizeServer p m = Except.ok r ∧
      getProp r "maxScore" = some (.num (.fin m)) ∧
      getProp r "score" = some (.num (.fin (serverScoreVal (getProp p "score") m))) ∧
      0 ≤ serverScoreVal (getProp p "score") m ∧ serverScoreVal (getProp p "score") m ≤ m) ∧
    (∃ r q, normalizeStatic p m = Except.ok r ∧
      getProp r "maxScore" = some (.num (.fin m)) ∧
      getProp r "score" = some (.num (.fin q)) ∧
      staticScoreVal (getProp p "score") m = .fin q ∧ 0 ≤ q ∧ q ≤ m) := by
  obtain ⟨r, heq, hmax, hscore, _⟩ := normalizeServer_ok p m hp
  obtain ⟨hlo, hhi⟩ := serverScoreVal_range (getProp p "score") m hm
  obtain ⟨r2, heq2, hmax2, hscore2, _⟩ := normalizeStatic_ok p m hp
  obtain ⟨q, hfin, hlo2, hhi2⟩ := staticScoreVal_fin (getProp p "score") m hm
  exact ⟨⟨r, heq, hmax, hscore, hlo, hhi⟩,
    ⟨r2, q, heq2, hmax2, by rw [hscore2, hfin], hfin, hlo2, hhi2⟩⟩

/-- C1, witness. -/
theorem normalizer_score_clamped_witness :
    objLike (JVal.obj [("score", .num (.fin 25))]) = true ∧ (0 : ℚ) ≤ 20 ∧
    ((∃ r, normalizeServer (.obj [("score", .num (.fin 25))]) 20 = Except.ok r ∧
      getProp r "maxScore" = some (.num (.fin 20)) ∧
      getProp r "score" = some (.num (.fin (serverScoreVal
        (getProp (JVal.obj [("score", .num (.fin 25))]) "score") 20))) ∧
      0 ≤ serverScoreVal (getProp (JVal.obj [("score", .num (.fin 25))]) "score") 20 ∧
      serverScoreVal (getProp (JVal.obj [("score", .num (.fin 25))]) "score") 20 ≤ 20) ∧
    (∃ r q, normalizeStatic (.obj [("score", .num (.fin 25))]) 20 = Except.ok r ∧
      getProp r "maxScore" = some (.num (.fin 20)) ∧
      getProp r "score" = some (.num (.fin q)) ∧
      staticScoreVal (getProp (JVal.obj [("score", .num (.fin 25))]) "score") 20 = .fin q ∧
      0 ≤ q ∧ q ≤ 20)) :=
  ⟨by rfl, by norm_num,
    normalizer_score_clamped_amended (.obj [("score", .num (.fin 25))]) 20 (by rfl) (by norm_num)⟩

/-! ### Claim C2: array-typed fields -/

/-- C2, counterexample.  The claim says every array-typed field of the
result is a sequence of strings; the normalizer only checks
`Array.isArray` (`server.js` line 463), so an incoming `strengths: [42]`
is kept verbatim with its non-string element. -/
theorem array_field_elements_kept_counterexample :
    ((normalizeServer (.obj [("strengths", .arr [.num (.fin 42)] [])]) 10).map
      (fun r => getProp r "strengths")) = .ok (some (.arr [.num (.fin 42)] [])) ∧
    isStringArray (.arr [.num (.fin 42)] []) = false := ⟨by rfl, by rfl⟩

/-- C2, amended.  For every object-shaped parsed value, each of the four
free-text array fields of the result is the incoming value itself when that
value is array-shaped (elements of any type are kept — they are not forced
to strings) and the empty array otherwise; a scalar is never wrapped into a
one-element array.  The server also applies the same rule to the two
`booklistAlignment` fields (`server.js` lines 470-471), while the static
variant normalizes only the four top-level fields and passes
`booklistAlignment` through untouched (`grader.js` lines 216-218). -/
theorem array_fields_normalized_amended (p : JVal) (m : ℚ) (hp : objLike p = true) :
    (∃ r, normalizeServer p m = Except.ok r ∧
      getProp r "strengths" = some (arrOrEmpty (getProp p "strengths")) ∧
      getProp r "missingPoints" = some (arrOrEmpty (getProp p "missingPoints")) ∧
      getProp r "improvements" = some (arrOrEmpty (getProp p "improvements")) ∧
      getProp r "suggestedOutline" = some (arrOrEmpty (getProp p "suggestedOutline")) ∧
      (∃ ba2, getProp r "booklistAlignment" = some ba2 ∧
        getProp ba2 "topics" = some (baFieldAfter (getProp p "booklistAlignment") "topics") ∧
        getProp ba2 "refsToReview" =
          some (baFieldAfter (getProp p "booklistAlignment") "refsToReview"))) ∧
    (∃ r, normalizeStatic p m = Except.ok r ∧
      getProp r "strengths" = some (arrOrEmpty (getProp p "strengths")) ∧
      getProp r "missingPoints" = some (arrOrEmpty (getProp p "missingPoints")) ∧
      getProp r "improvements" = some (arrOrEmpty (getProp p "improvements")) ∧
      getProp r "suggestedOutline" = some (arrOrEmpty (getProp p "suggestedOutline")) ∧
      getProp r "booklistAlignment" = getProp p "booklistAlignment") ∧
    (∀ u : JValU, isArrU u = false → arrOrEmpty u = .arr [] []) := by
  obtain ⟨r, heq, _, _, h3, h4, h5, h6, hba, _, _⟩ := normalizeServer_ok p m hp
  obtain ⟨r2, heq2, _, _, g3, g4, g5, g6, gba, _, _⟩ := normalizeStatic_ok p m hp
  refine ⟨⟨r, heq, h3, h4, h5, h6, hba⟩, ⟨r2, heq2, g3, g4, g5, g6, gba⟩, ?_⟩
  intro u hu
  cases u with
  | none => rfl
  | some v => cases v <;> simp_all [isArrU, arrOrEmpty]

/-- C2, witness. -/
theorem array_fields_normalized_witness :
    objLike (JVal.obj [("strengths", .str "good")]) = true ∧
    ((∃ r, normalizeServer (.obj [("strengths", .str "good")]) 10 = Except.ok r ∧
      getProp r "strengths" =
        some (arrOrEmpty (getProp (JVal.obj [("strengths", .str "good")]) "strengths")) ∧
      getProp r "missingPoints" =
        some (arrOrEmpty (getProp (JVal.obj [("strengths", .str "good")]) "missingPoints")) ∧
      getProp r "improvements" =
        some (arrOrEmpty (getProp (JVal.obj [("strengths", .str "good")]) "improvements")) ∧
      getProp r "suggestedOutline" =
        some (arrOrEmpty (getProp (JVal.obj [("strengths", .str "good")]) "suggestedOutline")) ∧
      (∃ ba2, getProp r "booklistAlignment" = some ba2 ∧
        getProp ba2 "topics" = some (baFieldAfter
          (getProp (JVal.obj [("strengths", .str "good")]) "booklistAlignment") "topics") ∧
        getProp ba2 "refsToReview" = some (baFieldAfter
          (getProp (JVal.obj [("strengths", .str "good")]) "booklistAlignment")
          "refsToReview"))) ∧
    (∃ r, normalizeStatic (.obj [("strengths", .str "good")]) 10 = Except.ok r ∧
      getProp r "strengths" =
        some (arrOrEmpty (getProp (JVal.obj [("strengths", .str "good")]) "strengths")) ∧
      getProp r "missingPoints" =
        some (arrOrEmpty (getProp (JVal.obj [("strengths", .str "good")]) "missingPoints")) ∧
      getProp r "improvements" =
        some (arrOrEmpty (getProp (JVal.obj [("strengths", .str "good")]) "improvements")) ∧
      getProp r "suggestedOutline" =
        some (arrOrEmpty (getProp (JVal.obj [("strengths", .str "good")]) "suggestedOutline")) ∧
      getProp r "booklistAlignment" =
        getProp (JVal.obj [("strengths", .str "good")]) "booklistAlignment") ∧
    (∀ u : JValU, isArrU u = false → arrOrEmpty u = .arr [] [])) :=
  ⟨by rfl, array_fields_normalized_amended (.obj [("strengths", .str "good")]) 10 (by rfl)⟩

/-! ### Claim C3: totality of the normalizer -/

theorem setProp_not_objLike (p : JVal) (k : String) (v : JVal) (h : objLike p = false) :
    setProp p k v = p := by
  cases p <;> simp_all [objLike, setProp]

theorem getProp_not_objLike (p : JVal) (k : String) (h : objLike p = false) :
    getProp p k = none := by
  cases p <;> simp_all [objLike, getProp]

theorem normalizeServer_err (p : JVal) (m : ℚ) (h : objLike p = false) :
    normalizeServer p m =
      .error "TypeError: cannot read properties of undefined (reading topics)" := by
  have hs : normScoreFields p m = p := by
    simp [normScoreFields, setProp_not_objLike _ _ _ h, getProp_not_objLike _ _ h]
  have ha : normArrays p = p := by
    simp [normArrays, normArrField, setProp_not_objLike _ _ _ h, getProp_not_objLike _ _ h,
      isArrU]
  have hb : normBooklist p =
      Except.error "TypeError: cannot read properties of undefined (reading topics)" := by
    simp [normBooklist, setProp_not_objLike _ _ _ h, getProp_not_objLike _ _ h, truthyU]
  show (normBooklist (normArrays (normScoreFields p m))).bind normDrill = _
  rw [hs, ha, hb]
  rfl

theorem normalizeStatic_err (p : JVal) (m : ℚ) (h : objLike p = false) :
    normalizeStatic p m = .error "TypeError: cannot create property on a primitive" := by
  simp [normalizeStatic, h]

/-- C3, counterexample.  The claim says the normalizer never raises for a
parsed value of any shape and always returns a fully-populated result; but
(a) an object without a `rationale` keeps `rationale` absent (the
normalizer never touches it), and (b) a truthy primitive parsed value makes
the server normalizer raise a `TypeError` at `server.js` line 470. -/
theorem rationale_not_populated_counterexample :
    ((normalizeServer (.obj [("score", .num (.fin 7))]) 10).map
      (fun r => getProp r "rationale")) = .ok none ∧
    normalizeServer (.num (.fin 5)) 10 =
      .error "TypeError: cannot read properties of undefined (reading topics)" :=
  ⟨by rfl, by rfl⟩

/-- C3, amended.  For every object-shaped parsed value the normalizers
never raise and the result carries `score`, `maxScore`, the four array
fields and (server only) `booklistAlignment` and `nextDrill`; `rationale`
is passed through unchanged and may be absent.  For every non-object
parsed value both normalizers raise a `TypeError` (server: reading a
property of `undefined` in sloppy mode; static: assigning a property on a
primitive in strict mode). -/
theorem normalizer_totality_amended (p : JVal) (m : ℚ) :
    (objLike p = true →
      (∃ r, normalizeServer p m = Except.ok r ∧
        (getProp r "score").isSome ∧ (getProp r "maxScore").isSome ∧
        (getProp r "strengths").isSome ∧ (getProp r "missingPoints").isSome ∧
        (getProp r "improvements").isSome ∧ (getProp r "suggestedOutline").isSome ∧
        (getProp r "booklistAlignment").isSome ∧ (getProp r "nextDrill").isSome ∧
        getProp r "rationale" = getProp p "rationale") ∧
      (∃ r, normalizeStatic p m = Except.ok r ∧
        (getProp r "score").isSome ∧ (getProp r "maxScore").isSome ∧
        (getProp r "strengths").isSome ∧ (getProp r "missingPoints").isSome ∧
        (getProp r "improvements").isSome ∧ (getProp r "suggestedOutline").isSome ∧
        getProp r "booklistAlignment" = getProp p "booklistAlignment" ∧
        getProp r "nextDrill" = getProp p "nextDrill" ∧
        getProp r "rationale" = getProp p "rationale")) ∧
    (objLike p = false →
      normalizeServer p m =
        .error "TypeError: cannot read properties of undefined (reading topics)" ∧
      normalizeStatic p m = .error "TypeError: cannot create property on a primitive") := by
  constructor
  · intro hp
    obtain ⟨r, heq, hmax, hscore, h3, h4, h5, h6, ⟨ba2, hba, _, _⟩, hnd, hrat⟩ :=
      normalizeServer_ok p m hp
    obtain ⟨r2, heq2, gmax, gscore, g3, g4, g5, g6, gba, gnd, grat⟩ :=
      normalizeStatic_ok p m hp
    refine ⟨⟨r, heq, ?_, ?_, ?_, ?_, ?_, ?_, ?_, ?_, hrat⟩,
      ⟨r2, heq2, ?_, ?_, ?_, ?_, ?_, ?_, gba, gnd, grat⟩⟩ <;>
      simp [hscore, hmax, h3, h4, h5, h6, hba, hnd, gscore, gmax, g3, g4, g5, g6]
  · intro hp
    exact ⟨normalizeServer_err p m hp, normalizeStatic_err p m hp⟩

/-- C3, witness. -/
theorem normalizer_totality_witness :
    ((objLike (JVal.obj []) = true →
      (∃ r, normalizeServer (.obj []) 10 = Except.ok r ∧
        (getProp r "score").isSome ∧ (getProp r "maxScore").isSome ∧
        (getProp r "strengths").isSome ∧ (getProp r "missingPoints").isSome ∧
        (getProp r "improvements").isSome ∧ (getProp r "suggestedOutline").isSome ∧
        (getProp r "booklistAlignment").isSome ∧ (getProp r "nextDrill").isSome ∧
        getProp r "rationale" = getProp (JVal.obj []) "rationale") ∧
      (∃ r, normalizeStatic (.obj []) 10 = Except.ok r ∧
        (getProp r "score").isSome ∧ (getProp r "maxScore").isSome ∧
        (getProp r "strengths").isSome ∧ (getProp r "missingPoints").isSome ∧
        (getProp r "improvements").isSome ∧ (getProp r "suggestedOutline").isSome ∧
        getProp r "booklistAlignment" = getProp (JVal.obj []) "booklistAlignment" ∧
        getProp r "nextDrill" = getProp (JVal.obj []) "nextDrill" ∧
        getProp r "rationale" = getProp (JVal.obj []) "rationale")) ∧
    (objLike (JVal.obj []) = false →
      normalizeServer (.obj []) 10 =
        .error "TypeError: cannot read properties of undefined (reading topics)" ∧
      normalizeStatic (.obj []) 10 =
        .error "TypeError: cannot create property on a primitive")) :=
  normalizer_totality_amended (.obj []) 10

/-! ### Claim C4: nextDrill normalization -/

theorem drillAfter_replaced (u : JValU)
    (h : ¬(truthyU u = true ∧ isObjTypeU u = true)) : drillAfter u = emptyDrillServer := by
  cases u with
  | none => rfl
  | some nd =>
    have h2 : ¬(truthy nd = true ∧ isObjTypeU (some nd) = true) := by
      simpa [truthyU] using h
    simp [drillAfter, h2]

theorem drillAfter_kept (nd : JVal) (ht : truthy nd = true) (hob : isObjTypeU (some nd) = true) :
    getProp (drillAfter (some nd)) "prompt" =
      (if isStrTypeU (getProp nd "prompt") = true then getProp nd "prompt"
       else some (.str "")) ∧
    getProp (drillAfter (some nd)) "timeboxMinutes" =
      some (.num (.fin (clampNumber (getProp nd "timeboxMinutes") 5 120 15))) := by
  have hobj : objLike nd = true := objLike_of_truthy_objType ht hob
  simp only [drillAfter,
    if_pos (show truthy nd = true ∧ isObjTypeU (some nd) = true from ⟨ht, hob⟩)]
  by_cases hp : isStrTypeU (getProp nd "prompt") = true
  · simp only [if_pos hp]
    exact ⟨by rw [getProp_setProp_ne _ _ _ _ (by decide)],
      getProp_setProp_same _ _ _ hobj⟩
  · simp only [if_neg hp]
    constructor
    · rw [getProp_setProp_ne _ _ _ _ (by decide), getProp_setProp_same _ _ _ hobj]
    · rw [getProp_setProp_same _ _ _ (by rw [objLike_setProp]; exact hobj),
        getProp_setProp_ne nd "prompt" "timeboxMinutes" _ (by decide)]

/-- C4, counterexample.  The claim says an absent `nextDrill` is replaced
wholesale by `{ prompt: "", timeboxMinutes: 15 }`; the server replacement
at `server.js` line 473 uses `timeboxMinutes: 10`, and the subsequent
clamp keeps the 10, so the result is 10, not 15. -/
theorem next_drill_default_counterexample :
    ((normalizeServer (.obj []) 20).map
      (fun r => getPropU (getProp r "nextDrill") "timeboxMinutes")) =
      .ok (some (.num (.fin 10))) ∧ (10 : ℚ) ≠ 15 :=
  ⟨by rfl, by norm_num⟩

/-- C4, amended.  For every object-shaped parsed value: when `nextDrill`
is absent or not object-shaped, it is replaced wholesale by
`{ prompt: "", timeboxMinutes: 10 }` (not 15 — the clamp that follows
keeps the 10); otherwise `prompt` is kept only when string-typed (blank
otherwise) and `timeboxMinutes` is `Number`-coerced and clamped to
`[5,120]`, defaulting to 15 when not finite. -/
theorem next_drill_normalization_amended (p : JVal) (m : ℚ) (hp : objLike p = true) :
    ∃ r, normalizeServer p m = Except.ok r ∧
      getProp r "nextDrill" = some (drillAfter (getProp p "nextDrill")) ∧
      (¬(truthyU (getProp p "nextDrill") = true ∧
          isObjTypeU (getProp p "nextDrill") = true) →
        drillAfter (getProp p "nextDrill") =
          .obj [("prompt", .str ""), ("timeboxMinutes", .num (.fin 10))]) ∧
      (∀ nd, getProp p "nextDrill" = some nd → truthy nd = true →
        isObjTypeU (some nd) = true →
        getProp (drillAfter (some nd)) "prompt" =
          (if isStrTypeU (getProp nd "prompt") = true then getProp nd "prompt"
           else some (.str "")) ∧
        getProp (drillAfter (some nd)) "timeboxMinutes" =
          some (.num (.fin (clampNumber (getProp nd "timeboxMinutes") 5 120 15)))) := by
  obtain ⟨r, heq, _, _, _, _, _, _, _, hnd, _⟩ := normalizeServer_ok p m hp
  refine ⟨r, heq, hnd, fun h => drillAfter_replaced _ h, fun nd hnd2 ht hob => ?_⟩
  exact drillAfter_kept nd ht hob

/-- C4, witness. -/
theorem next_drill_normalization_witness :
    objLike (JVal.obj [("nextDrill", .obj [("timeboxMinutes", .num (.fin 300))])]) = true ∧
    (∃ r, normalizeServer
        (.obj [("nextDrill", .obj [("timeboxMinutes", .num (.fin 300))])]) 10 = Except.ok r ∧
      getProp r "nextDrill" = some (drillAfter (getProp
        (JVal.obj [("nextDrill", .obj [("timeboxMinutes", .num (.fin 300))])]) "nextDrill")) ∧
      (¬(truthyU (getProp (JVal.obj [("nextDrill",
            .obj [("timeboxMinutes", .num (.fin 300))])]) "nextDrill") = true ∧
          isObjTypeU (getProp (JVal.obj [("nextDrill",
            .obj [("timeboxMinutes", .num (.fin 300))])]) "nextDrill") = true) →
        drillAfter (getProp (JVal.obj [("nextDrill",
            .obj [("timeboxMinutes", .num (.fin 300))])]) "nextDrill") =
          .obj [("prompt", .str ""), ("timeboxMinutes", .num (.fin 10))]) ∧
      (∀ nd, getProp (JVal.obj [("nextDrill",
          .obj [("timeboxMinutes", .num (.fin 300))])]) "nextDrill" = some nd →
        truthy nd = true → isObjTypeU (some nd) = true →
        getProp (drillAfter (some nd)) "prompt" =
          (if isStrTypeU (getProp nd "prompt") = true then getProp nd "prompt"
           else some (.str "")) ∧
        getProp (drillAfter (some nd)) "timeboxMinutes" =
          some (.num (.fin (clampNumber (getProp nd "timeboxMinutes") 5 120 15))))) :=
  ⟨by rfl, next_drill_normalization_amended
    (.obj [("nextDrill", .obj [("timeboxMinutes", .num (.fin 300))])]) 10 (by rfl)⟩

/-! ### Claim C6: the parse-failure fallback -/

/-- C6, counterexample.  The claim says the fallback result carries
empty/default fields; on the static path the fallback (`grader.js`
lines 201-208) carries no array fields and no `nextDrill` at all — only
`score`, `maxScore`, `rationale` and the embedded raw text. -/
theorem static_fallback_fields_counterexample :
    gradeAnswerResult (.str "Sorry, I cannot grade that.") 20 =
      .ok (staticFallbackResult 20 (.str "Sorry, I cannot grade that."), none) ∧
    getProp (staticFallbackResult 20 (.str "Sorry, I cannot grade that.")) "strengths" = none ∧
    getProp (staticFallbackResult 20 (.str "Sorry, I cannot grade that.")) "nextDrill" = none :=
  ⟨by rfl, by rfl, by rfl⟩

/-- C6, amended.  For every raw reply from which the extractor yields null
and every `maxScore`, the server orchestrator returns (as a success) the
fully-populated degenerate fallback — score 0, the question's `maxScore`,
the fixed could-not-parse rationale, empty arrays, empty
`booklistAlignment` and the default `nextDrill` — together with the raw
text; the static orchestrator also succeeds but its fallback carries only
`score`, `maxScore`, `rationale` and the raw text (no array or drill
fields). -/
theorem fallback_result_amended (raw : String) (m : ℚ)
    (h : safeJsonParse raw = JVal.null) :
    handleGradeResult raw m = .ok (serverFallbackResult m, raw) ∧
    getProp (serverFallbackResult m) "score" = some (.num (.fin 0)) ∧
    getProp (serverFallbackResult m) "maxScore" = some (.num (.fin m)) ∧
    getProp (serverFallbackResult m) "rationale" =
      some (.str "模型回傳格式不是 JSON，請重試。") ∧
    getProp (serverFallbackResult m) "strengths" = some (.arr [] []) ∧
    getProp (serverFallbackResult m) "missingPoints" = some (.arr [] []) ∧
    getProp (serverFallbackResult m) "improvements" = some (.arr [] []) ∧
    getProp (serverFallbackResult m) "suggestedOutline" = some (.arr [] []) ∧
    getProp (serverFallbackResult m) "booklistAlignment" = some emptyBooklist ∧
    getProp (serverFallbackResult m) "nextDrill" = some emptyDrillServer ∧
    gradeAnswerResult (.str raw) m = .ok (staticFallbackResult m (.str raw), none) ∧
    getProp (staticFallbackResult m (.str raw)) "score" = some (.num (.fin 0)) ∧
    getProp (staticFallbackResult m (.str raw)) "maxScore" = some (.num (.fin m)) ∧
    getProp (staticFallbackResult m (.str raw)) "rationale" =
      some (.str "AI 回傳格式無法解析，請重試。") ∧
    getProp (staticFallbackResult m (.str raw)) "raw" = some (.str raw) := by
  refine ⟨?_, by rfl, by rfl, by rfl, by rfl, by rfl, by rfl, by rfl, by rfl, by rfl,
    ?_, by rfl, by rfl, by rfl, by rfl⟩
  · simp [handleGradeResult, h, truthy]
  · have h2 : safeJsonParseU (some (.str raw)) = JVal.null := h
    simp [gradeAnswerResult, h2, truthy]

/-- C6, witness. -/
theorem fallback_result_witness :
    safeJsonParse "plain prose, no braces" = JVal.null ∧
    (handleGradeResult "plain prose, no braces" 20 =
      .ok (serverFallbackResult 20, "plain prose, no braces") ∧
    getProp (serverFallbackResult 20) "score" = some (.num (.fin 0)) ∧
    getProp (serverFallbackResult 20) "maxScore" = some (.num (.fin 20)) ∧
    getProp (serverFallbackResult 20) "rationale" =
      some (.str "模型回傳格式不是 JSON，請重試。") ∧
    getProp (serverFallbackResult 20) "strengths" = some (.arr [] []) ∧
    getProp (serverFallbackResult 20) "missingPoints" = some (.arr [] []) ∧
    getProp (serverFallbackResult 20) "improvements" = some (.arr [] []) ∧
    getProp (serverFallbackResult 20) "suggestedOutline" = some (.arr [] []) ∧
    getProp (serverFallbackResult 20) "booklistAlignment" = some emptyBooklist ∧
    getProp (serverFallbackResult 20) "nextDrill" = some emptyDrillServer ∧
    gradeAnswerResult (.str "plain prose, no braces") 20 =
      .ok (staticFallbackResult 20 (.str "plain prose, no braces"), none) ∧
    getProp (staticFallbackResult 20 (.str "plain prose, no braces")) "score" =
      some (.num (.fin 0)) ∧
    getProp (staticFallbackResult 20 (.str "plain prose, no braces")) "maxScore" =
      some (.num (.fin 20)) ∧
    getProp (staticFallbackResult 20 (.str "plain prose, no braces")) "rationale" =
      some (.str "AI 回傳格式無法解析，請重試。") ∧
    getProp (staticFallbackResult 20 (.str "plain prose, no braces")) "raw" =
      some (.str "plain prose, no braces")) :=
  ⟨by rfl, fallback_result_amended "plain prose, no braces" 20 (by rfl)⟩

/-! ### Claim C7: top-level non-object replies -/

/-- C7.  The claim (following the spec's recommendation) says a top-level
non-object parse is treated as extraction failure and yields the fallback;
in the code only *falsy* parses fall back (`if (!parsed)`): the truthy
primitive reply `"5"` parses to the number 5 and then crashes the server
normalizer with a `TypeError` (sloppy-mode property writes on a primitive
are no-ops, so `server.js` line 470 reads a property of `undefined`),
while the static path raises on the strict-mode property assignment; the
falsy reply `"0"` does fall back. -/
theorem top_level_non_object_crash :
    safeJsonParse "5" = .num (.fin 5) ∧
    handleGradeResult "5" 10 =
      .error "TypeError: cannot read properties of undefined (reading topics)" ∧
    gradeAnswerResult (.str "5") 10 =
      .error "TypeError: cannot create property on a primitive" ∧
    safeJsonParse "0" = .num (.fin 0) ∧
    handleGradeResult "0" 10 = .ok (serverFallbackResult 10, "0") :=
  ⟨by rfl, by rfl, by rfl, by rfl, by rfl⟩

/-! ### Claim C9: provider routing defaults -/

/-- C9.  For every absent or unrecognized provider selector both
orchestrators route to the OpenAI (Variant A) adapter: the server
canonicalizes through `normalizeProvider` (`server.js` lines 148-156,
falling through to `"openai"`), the static client's strict comparisons
(`grader.js` lines 191-196) fall through to `callOpenAI`. -/
theorem provider_default_routing :
    (∀ v : JValU, canonProvider v ∉ recognizedProviders → serverRoute v = .openai) ∧
    serverRoute none = .openai ∧
    (∀ p : JValU, (∀ s, p = some (.str s) → s ≠ "google" ∧ s ≠ "claude") →
      staticRoute p = .openai) ∧
    staticRoute none = .openai := by
  refine ⟨?_, by rfl, ?_, by rfl⟩
  · intro v hv
    simp only [recognizedProviders, List.mem_cons, List.not_mem_nil, or_false, not_or] at hv
    obtain ⟨h1, h2, h3, h4, h5⟩ := hv
    have hn : normalizeProvider v = "openai" := by
      simp only [normalizeProvider]
      rw [if_neg (by exact h1), if_neg (by exact h2), if_neg (by exact h3),
        if_neg (by exact h4), if_neg (by exact h5)]
    simp [serverRoute, hn]
  · intro p hp
    match p with
    | none => rfl
    | some .null => rfl
    | some (.bool b) => rfl
    | some (.num n) => rfl
    | some (.arr xs ps) => rfl
    | some (.obj fs) => rfl
    | some (.str s) =>
      obtain ⟨hg, hc⟩ := hp s rfl
      simp only [staticRoute]
      split
      · next heq => exact absurd (by injection heq with h; injection h) hg
      · next heq => exact absurd (by injection heq with h; injection h) hc
      · rfl

/-- C9, witness. -/
theorem provider_default_routing_witness :
    (canonProvider (some (.str "mistral")) ∉ recognizedProviders →
      serverRoute (some (.str "mistral")) = .openai) ∧
    canonProvider (some (.str "mistral")) ∉ recognizedProviders ∧
    serverRoute (some (.str "mistral")) = .openai ∧
    ((∀ s, (some (JVal.str "mistral") : JValU) = some (.str s) →
        s ≠ "google" ∧ s ≠ "claude") →
      staticRoute (some (.str "mistral")) = .openai) ∧
    staticRoute (some (.str "mistral")) = .openai := by
  have h1 : truthyU (some (JVal.str "mistral")) = true := by decide
  have h2 : jsToStringU (some (JVal.str "mistral")) = "mistral" := by
    simp [jsToStringU, jsToStringV]
  have hcanon : canonProvider (some (.str "mistral")) = "mistral" := by
    simp only [canonProvider, h1, if_true, h2]
    decide
  have hmem : canonProvider (some (.str "mistral")) ∉ recognizedProviders := by
    rw [hcanon]; decide
  refine ⟨provider_default_routing.1 (some (.str "mistral")), hmem,
    provider_default_routing.1 (some (.str "mistral")) hmem,
    provider_default_routing.2.2.1 (some (.str "mistral")), ?_⟩
  refine provider_default_routing.2.2.1 (some (.str "mistral")) ?_
  intro s hs
  injection hs with h
  injection h with h2
  subst h2
  exact ⟨by decide, by decide⟩

/-! ### Claim C8: empty-reply handling in the adapters -/

theorem callOpenAIServer_emptyReply (apiKey : String) (envKey : Option String) (st : ℚ)
    (data : JVal) (h1 : jsTrim apiKey ≠ "") (h2 : jsStartsWith "sk-" (jsTrim apiKey) = true)
    (h3 : ¬ (jsTrim apiKey).length < 20)
    (he : emptyTextU (getPropU (getPropU (getIdxU (getProp data "choices") 0) "message")
      "content") = true) :
    callOpenAIServer apiKey envKey true st data =
      .error "OpenAI API returned empty content" := by
  cases hc : getPropU (getPropU (getIdxU (getProp data "choices") 0) "message") "content" with
  | none => simp [callOpenAIServer, h1, h2, h3, hc]
  | some v =>
    rw [hc] at he
    cases v with
    | str s =>
      have he2 : jsTrim s = "" := by simpa [emptyTextU] using he
      simp [callOpenAIServer, h1, h2, h3, hc, he2]
    | null => simp [callOpenAIServer, h1, h2, h3, hc]
    | bool b => simp [callOpenAIServer, h1, h2, h3, hc]
    | num n => simp [callOpenAIServer, h1, h2, h3, hc]
    | arr xs ps => simp [callOpenAIServer, h1, h2, h3, hc]
    | obj fs => simp [callOpenAIServer, h1, h2, h3, hc]

theorem callGoogleServer_emptyReply (apiKey : String) (envKey : Option String) (st : ℚ)
    (data : JVal) (h1 : jsTrim apiKey ≠ "")
    (he : emptyTextS (partsTextServer (getPropU (getPropU (getIdxU (getProp data "candidates")
      0) "content") "parts")) = true) :
    callGoogleServer apiKey envKey true st data =
      .error "Google API returned empty content" := by
  cases hc : partsTextServer (getPropU (getPropU (getIdxU (getProp data "candidates") 0)
      "content") "parts") with
  | none => simp [callGoogleServer, h1, hc]
  | some t =>
    rw [hc] at he
    have he2 : jsTrim t = "" := by simpa [emptyTextS] using he
    simp [callGoogleServer, h1, hc, he2]

theorem callClaudeServer_emptyReply (apiKey : String) (envKey : Option String) (st : ℚ)
    (data : JVal) (h1 : jsTrim apiKey ≠ "") (h3 : ¬ (jsTrim apiKey).length < 20)
    (he : emptyTextS (partsTextServer (getProp data "content")) = true) :
    callClaudeServer apiKey envKey true st data =
      .error "Anthropic API returned empty content" := by
  cases hc : partsTextServer (getProp data "content") with
  | none => simp [callClaudeServer, h1, h3, hc]
  | some t =>
    rw [hc] at he
    have he2 : jsTrim t = "" := by simpa [emptyTextS] using he
    simp [callClaudeServer, h1, h3, hc, he2]

/-- C8, counterexample.  The claim says every one of the three adapter
variants fails with the distinct EmptyReply failure on an empty extracted
text; the static-client OpenAI adapter (`grader.js` line 108) instead
returns the empty string as a success (`content || ""`), while the server
adapter does raise the empty-content error on the same response body. -/
theorem static_adapter_empty_reply_counterexample :
    callOpenAIStatic (some (.str "sk-test")) true 200 (.obj []) = .ok (.str "") ∧
    callOpenAIServer "sk-00000000000000000000" none true 200 (.obj []) =
      .error "OpenAI API returned empty content" := ⟨by rfl, by rfl⟩

/-- C8, amended.  The three *server* adapters, on an ok response whose
extracted text is missing, non-string, empty or whitespace-only, fail with
their distinct empty-content error (a different message from the missing-
credential and invalid-format errors); the *static* adapters perform no
such check: the static OpenAI adapter returns `""` as a success whenever
the content is falsy, and the static Google/Claude adapters return `""`
whenever the parts are not an array (`grader.js` lines 108, 139, 176). -/
theorem empty_reply_amended :
    (∀ (apiKey : String) (envKey : Option String) (st : ℚ) (data : JVal),
      jsTrim apiKey ≠ "" → jsStartsWith "sk-" (jsTrim apiKey) = true →
      ¬ (jsTrim apiKey).length < 20 →
      emptyTextU (getPropU (getPropU (getIdxU (getProp data "choices") 0) "message")
        "content") = true →
      callOpenAIServer apiKey envKey true st data =
        .error "OpenAI API returned empty content") ∧
    (∀ (apiKey : String) (envKey : Option String) (st : ℚ) (data : JVal),
      jsTrim apiKey ≠ "" →
      emptyTextS (partsTextServer (getPropU (getPropU (getIdxU (getProp data "candidates") 0)
        "content") "parts")) = true →
      callGoogleServer apiKey envKey true st data =
        .error "Google API returned empty content") ∧
    (∀ (apiKey : String) (envKey : Option String) (st : ℚ) (data : JVal),
      jsTrim apiKey ≠ "" → ¬ (jsTrim apiKey).length < 20 →
      emptyTextS (partsTextServer (getProp data "content")) = true →
      callClaudeServer apiKey envKey true st data =
        .error "Anthropic API returned empty content") ∧
    ("OpenAI API returned empty content" ≠
        "Missing OpenAI API key (set env OPENAI_API_KEY or input it in the UI)" ∧
      "OpenAI API returned empty content" ≠ "OpenAI API key format looks invalid" ∧
      "Google API returned empty content" ≠
        "Missing Google API key (set env GOOGLE_API_KEY/GEMINI_API_KEY or input it in the UI)" ∧
      "Anthropic API returned empty content" ≠
        "Missing Anthropic API key (set env ANTHROPIC_API_KEY or input it in the UI)" ∧
      "Anthropic API returned empty content" ≠ "Anthropic API key format looks invalid") ∧
    (∀ (key : JValU) (st : ℚ) (data : JVal), truthyU key = true →
      truthyU (getPropU (getPropU (getIdxU (getProp data "choices") 0) "message")
        "content") = false →
      callOpenAIStatic key true st data = .ok (.str "")) ∧
    (∀ (key : JValU) (st : ℚ) (data : JVal), truthyU key = true →
      isArrU (getPropU (getPropU (getIdxU (getProp data "candidates") 0) "content")
        "parts") = false →
      callGoogleStatic key true st data = .ok (.str "")) ∧
    (∀ (key : JValU) (st : ℚ) (data : JVal), truthyU key = true →
      isArrU (getProp data "content") = false →
      callClaudeStatic key true st data = .ok (.str "")) := by
  refine ⟨callOpenAIServer_emptyReply, callGoogleServer_emptyReply,
    callClaudeServer_emptyReply, ⟨by decide, by decide, by decide, by decide, by decide⟩,
    ?_, ?_, ?_⟩
  · intro key st data hk hc
    cases hcv : getPropU (getPropU (getIdxU (getProp data "choices") 0) "message") "content" with
    | none => simp [callOpenAIStatic, hk, hcv]
    | some v =>
      rw [hcv] at hc
      have : truthy v = false := by simpa [truthyU] using hc
      simp [callOpenAIStatic, hk, hcv, this]
  · intro key st data hk hp
    cases hpv : getPropU (getPropU (getIdxU (getProp data "candidates") 0) "content")
        "parts" with
    | none => simp [callGoogleStatic, hk, hpv]
    | some v =>
      rw [hpv] at hp
      cases v <;> simp_all [callGoogleStatic, hk, isArrU]
  · intro key st data hk hp
    cases hpv : getProp data "content" with
    | none => simp [callClaudeStatic, hk, hpv]
    | some v =>
      rw [hpv] at hp
      cases v <;> simp_all [callClaudeStatic, hk, isArrU]

/-- C8, witness. -/
theorem empty_reply_witness :
    jsTrim "sk-00000000000000000000" ≠ "" ∧
    jsStartsWith "sk-" (jsTrim "sk-00000000000000000000") = true ∧
    ¬ (jsTrim "sk-00000000000000000000").length < 20 ∧
    emptyTextU (getPropU (getPropU (getIdxU (getProp (JVal.obj [("choices",
      .arr [.obj [("message", .obj [("content", .str "   ")])]] [])]) "choices") 0)
      "message") "content") = true ∧
    callOpenAIServer "sk-00000000000000000000" none true 200 (JVal.obj [("choices",
      .arr [.obj [("message", .obj [("content", .str "   ")])]] [])]) =
      .error "OpenAI API returned empty content" ∧
    callGoogleServer "g-key-aaaaaaaaaaaaaaaa" none true 200 (.obj []) =
      .error "Google API returned empty content" ∧
    callClaudeServer "cl-key-aaaaaaaaaaaaaaaa" none true 200 (.obj []) =
      .error "Anthropic API returned empty content" ∧
    callOpenAIStatic (some (.str "k")) true 200 (.obj []) = .ok (.str "") ∧
    callGoogleStatic (some (.str "k")) true 200 (.obj []) = .ok (.str "") ∧
    callClaudeStatic (some (.str "k")) true 200 (.obj []) = .ok (.str "") := by
  refine ⟨by decide, by decide, by decide, by rfl, ?_, ?_, ?_, ?_, ?_, ?_⟩
  · exact empty_reply_amended.1 "sk-00000000000000000000" none 200 _
      (by decide) (by decide) (by decide) (by rfl)
  · exact empty_reply_amended.2.1 "g-key-aaaaaaaaaaaaaaaa" none 200 (.obj [])
      (by decide) (by rfl)
  · exact empty_reply_amended.2.2.1 "cl-key-aaaaaaaaaaaaaaaa" none 200 (.obj [])
      (by decide) (by decide) (by rfl)
  · exact empty_reply_amended.2.2.2.2.1 (some (.str "k")) 200 (.obj []) (by decide) (by rfl)
  · exact empty_reply_amended.2.2.2.2.2.1 (some (.str "k")) 200 (.obj []) (by decide) (by rfl)
  · exact empty_reply_amended.2.2.2.2.2.2 (some (.str "k")) 200 (.obj []) (by decide) (by rfl)

/-! ### Claim C10: the prompt builder -/

theorem infix_append_left {α : Type} {s t : List α} (u : List α) (h : s <:+: t) :
    s <:+: u ++ t := by
  obtain ⟨a, b, hab⟩ := h
  exact ⟨u ++ a, b, by rw [← hab]; simp⟩

theorem infix_joinSep_of_mem (sep : String) (l : List String) (s : String) (h : s ∈ l) :
    s.data <:+: (joinSep sep l).data := by
  induction l with
  | nil => cases h
  | cons x tl ih =>
    cases tl with
    | nil =>
      rcases List.mem_singleton.mp h with rfl
      exact List.infix_refl _
    | cons y tl2 =>
      rcases List.mem_cons.mp h with rfl | hmem
      · refine ⟨[], (sep ++ joinSep sep (y :: tl2)).data, ?_⟩
        show s.data ++ _ = (joinSep sep (s :: y :: tl2)).data
        simp [joinSep, String.data_append]
      · have h2 := ih hmem
        have : (joinSep sep (x :: y :: tl2)).data =
            (x ++ sep).data ++ (joinSep sep (y :: tl2)).data := by
          simp [joinSep, String.data_append]
        rw [this]
        exact infix_append_left _ h2

theorem answer_infix_answerPart (answer : String) :
    answer.data <:+: (answerPart answer).data :=
  ⟨"\n【考生答案】\n".data, [], by simp [answerPart, String.data_append]⟩

theorem maxScore_infix_headerPart (q : Question) (m : ℚ) :
    (numToString (.fin m)).data <:+: (headerPart q m).data :=
  ⟨("【題目｜" ++ q.sectionLabel ++ "｜").data, (" 分】\n" ++ q.text).data, by
    simp [headerPart, String.data_append]⟩

/-- C10.  For every question, non-empty answer, `maxScore` and optional
context, both prompt builders produce exactly two chat messages — the
fixed system message and one user message — and the user message contains
the literal answer text and the literal rendered point value. -/
theorem prompt_builder_two_messages (q : Question) (answer : String) (m : ℚ)
    (el : Option JNum) (ns bs : Option String) (_hans : answer ≠ "") :
    (∃ usrc, buildGradingMessages q answer m el ns bs =
        [⟨"system", systemMsgServer⟩, ⟨"user", usrc⟩] ∧
      answer.data <:+: usrc.data ∧ (numToString (.fin m)).data <:+: usrc.data) ∧
    (∃ usrc, buildGradingMessagesStatic q answer m el =
        [⟨"system", systemMsgStatic⟩, ⟨"user", usrc⟩] ∧
      answer.data <:+: usrc.data ∧ (numToString (.fin m)).data <:+: usrc.data) := by
  constructor
  · refine ⟨_, rfl, ?_, ?_⟩
    · refine (answer_infix_answerPart answer).trans (infix_joinSep_of_mem _ _ _ ?_)
      simp [List.mem_append]
    · refine (maxScore_infix_headerPart q m).trans (infix_joinSep_of_mem _ _ _ ?_)
      simp [List.mem_append]
  · refine ⟨_, rfl, ?_, ?_⟩
    · refine (answer_infix_answerPart answer).trans (infix_joinSep_of_mem _ _ _ ?_)
      simp [List.mem_append]
    · refine (maxScore_infix_headerPart q m).trans (infix_joinSep_of_mem _ _ _ ?_)
      simp [List.mem_append]

/-- C10, witness. -/
theorem prompt_builder_two_messages_witness :
    ("答案內容" : String) ≠ "" ∧
    ((∃ usrc, buildGradingMessages ⟨"研究設計", "請說明效度", []⟩ "答案內容" 20 none none none =
        [⟨"system", systemMsgServer⟩, ⟨"user", usrc⟩] ∧
      ("答案內容" : String).data <:+: usrc.data ∧
      (numToString (.fin 20)).data <:+: usrc.data) ∧
    (∃ usrc, buildGradingMessagesStatic ⟨"研究設計", "請說明效度", []⟩ "答案內容" 20 none =
        [⟨"system", systemMsgStatic⟩, ⟨"user", usrc⟩] ∧
      ("答案內容" : String).data <:+: usrc.data ∧
      (numToString (.fin 20)).data <:+: usrc.data)) :=
  ⟨by decide, prompt_builder_two_messages ⟨"研究設計", "請說明效度", []⟩ "答案內容" 20
    none none none (by decide)⟩

/-! ### Claim C5: lemma base for the extractor round trip -/

theorem parseValue_backtick (fuel : Nat) (r : List Char) :
    parseValue fuel ('`' :: r) = none := by
  cases fuel with
  | zero => rfl
  | succ f =>
    have hws : skipWsJ ('`' :: r) = '`' :: r := by
      simp [skipWsJ, List.dropWhile_cons, isJsonWs]
    simp [parseValue, hws, Char.isDigit]

theorem jsonParseL_backtick (r : List Char) : jsonParseL ('`' :: r) = none := by
  simp [jsonParseL, parseValue_backtick]

theorem jsonParseL_nil : jsonParseL [] = none := by rfl

theorem jsonParseL_ne_nil {s : List Char} {v : JVal} (h : jsonParseL s = some v) :
    s ≠ [] := by
  intro hc
  rw [hc, jsonParseL_nil] at h
  cases h

theorem prefix_append_sep {p a b : List Char} {c : Char} (hc : c ∉ p)
    (h : p <+: a ++ c :: b) : p <+: a := by
  induction a generalizing p with
  | nil =>
    cases p with
    | nil => exact List.nil_prefix
    | cons p0 pr =>
      obtain ⟨t, ht⟩ := h
      simp only [List.nil_append, List.cons_append] at ht
      injection ht with h1 _
      exact absurd (h1 ▸ List.mem_cons_self p0 pr) hc
  | cons x a2 ih =>
    cases p with
    | nil => exact List.nil_prefix
    | cons p0 pr =>
      obtain ⟨t, ht⟩ := h
      simp only [List.cons_append] at ht
      injection ht with h1 h2
      subst h1
      have hpr : pr <+: a2 ++ c :: b := ⟨t, h2⟩
      have : pr <+: a2 := ih (fun hm => hc (List.mem_cons_of_mem _ hm)) hpr
      obtain ⟨t2, ht2⟩ := this
      exact ⟨t2, by rw [List.cons_append, ht2]⟩

theorem infix_append_sep {pat a b : List Char} {c : Char} (hc : c ∉ pat)
    (h : pat <:+: a ++ c :: b) : pat <:+: a ∨ pat <:+: b := by
  induction a with
  | nil =>
    rw [List.nil_append, List.infix_cons_iff] at h
    rcases h with hp | hi
    · cases pat with
      | nil => exact Or.inl (List.nil_infix)
      | cons p0 pr =>
        obtain ⟨t, ht⟩ := hp
        injection ht with h1 _
        exact absurd (h1 ▸ List.mem_cons_self p0 pr) hc
    · exact Or.inr hi
  | cons x a2 ih =>
    rw [List.cons_append, List.infix_cons_iff] at h
    rcases h with hp | hi
    · exact Or.inl (prefix_append_sep hc (by simpa using hp)).isInfix
    · rcases ih hi with h1 | h2
      · exact Or.inl (List.infix_cons h1)
      · exact Or.inr h2

theorem findSub_none_of_no_occurrence {pat l : List Char} (h : ¬ pat <:+: l) :
    findSub pat l = none := by
  induction l with
  | nil =>
    have hp : pat ≠ [] := fun hc => h (hc ▸ List.nil_infix)
    simp [findSub, hp]
  | cons c tl ih =>
    have h1 : ¬ pat.isPrefixOf (c :: tl) = true := by
      rw [List.isPrefixOf_iff_prefix]
      exact fun hp => h hp.isInfix
    have h2 : ¬ pat <:+: tl := fun hi => h (List.infix_cons hi)
    simp [findSub, h1, ih h2]

theorem findSub_some_of {pat l : List Char} {i : Nat} (h1 : pat <+: l.drop i)
    (h2 : ∀ j, j < i → ¬ pat <+: l.drop j) : findSub pat l = some i := by
  induction l generalizing i with
  | nil =>
    cases i with
    | zero =>
      simp only [List.drop_nil] at h1
      have : pat = [] := List.prefix_nil.mp h1
      simp [findSub, this]
    | succ i2 =>
      simp only [List.drop_nil] at h1
      have : pat = [] := List.prefix_nil.mp h1
      exact absurd (this ▸ List.nil_prefix) (h2 0 (Nat.succ_pos i2))
  | cons c tl ih =>
    cases i with
    | zero =>
      have : pat.isPrefixOf (c :: tl) = true := List.isPrefixOf_iff_prefix.mpr (by simpa using h1)
      simp [findSub, this]
    | succ i2 =>
      have hnp : ¬ pat.isPrefixOf (c :: tl) = true := by
        rw [List.isPrefixOf_iff_prefix]
        exact fun hp => h2 0 (Nat.succ_pos i2) (by simpa using hp)
      have hrec : findSub pat tl = some i2 :=
        ih (by simpa using h1) (fun j hj => by
          have := h2 (j + 1) (Nat.succ_lt_succ hj)
          simpa using this)
      simp [findSub, hnp, hrec]

theorem dropWhile_eq_self_of_head {l : List Char} {p : Char → Bool}
    (h : ∀ c, l.head? = some c → p c = false) : l.dropWhile p = l := by
  cases l with
  | nil => rfl
  | cons c tl => exact List.dropWhile_cons_of_neg (by simp [h c rfl])

theorem trimRightL_eq_self_of_last {l : List Char}
    (h : ∀ c, l.getLast? = some c → isJsWs c = false) : trimRightL l = l := by
  have hrev : ∀ c, l.reverse.head? = some c → isJsWs c = false := by
    intro c hc
    exact h c (by rwa [List.head?_reverse] at hc)
  rw [trimRightL, dropWhile_eq_self_of_head hrev, List.reverse_reverse]

theorem jsTrimL_eq_self {l : List Char}
    (h1 : ∀ c, l.head? = some c → isJsWs c = false)
    (h2 : ∀ c, l.getLast? = some c → isJsWs c = false) : jsTrimL l = l := by
  rw [jsTrimL, trimLeftL, dropWhile_eq_self_of_head h1, trimRightL_eq_self_of_last h2]

theorem head_append_of_ne_nil {s B : List Char} (hs : s ≠ []) :
    (s ++ B).head? = s.head? := by
  cases s with
  | nil => exact absurd rfl hs
  | cons c tl => rfl

theorem fenceInner_fenceText {s : List Char} (hs : s ≠ [])
    (hh : ∀ c, s.head? = some c → isJsWs c = false)
    (hl : ∀ c, s.getLast? = some c → isJsWs c = false)
    (hf : ¬ tick3 <:+: s) :
    fenceInner (fenceText s) = some s := by
  have hfind0 : findSub tick3 (fenceText s) = some 0 :=
    findSub_some_of (i := 0)
      (by exact ⟨"json\n".toList ++ s ++ "\n```".toList, rfl⟩)
      (fun j hj => absurd hj (Nat.not_lt_zero j))
  have hdrop3 : (fenceText s).drop 3 = "json\n".toList ++ s ++ "\n```".toList := by rfl
  have hlabel : hasJsonLabel ("json\n".toList ++ s ++ "\n```".toList) = true := by rfl
  have hdrop4 : ("json\n".toList ++ s ++ "\n```".toList).drop 4 =
      '\n' :: (s ++ "\n```".toList) := by rfl
  have hws : ('\n' :: (s ++ "\n```".toList)).dropWhile isJsWs = s ++ "\n```".toList := by
    rw [List.dropWhile_cons_of_pos (by decide)]
    refine dropWhile_eq_self_of_head ?_
    intro c hc
    rw [head_append_of_ne_nil hs] at hc
    exact hh c hc
  have hrest : ("\n```".toList : List Char) = '\n' :: tick3 := by rfl
  have hfind2 : findSub tick3 (s ++ "\n```".toList) = some (s.length + 1) := by
    refine findSub_some_of ?_ ?_
    · rw [List.drop_append_eq_append_drop, List.drop_of_length_le (by omega),
        List.nil_append, hrest]
      have : (s.length + 1) - s.length = 1 := by omega
      rw [this]
      exact ⟨[], by simp⟩
    · intro j hj hpre
      have hj2 : j ≤ s.length := by omega
      rw [List.drop_append_eq_append_drop, Nat.sub_eq_zero_of_le hj2, List.drop_zero,
        hrest] at hpre
      have h1 : tick3 <+: s.drop j :=
        prefix_append_sep (by decide) hpre
      exact hf (h1.isInfix.trans (List.drop_suffix j s).isInfix)
  have htake : (s ++ "\n```".toList).take (s.length + 1) = s ++ ['\n'] := by
    rw [List.take_append_eq_append_take, List.take_of_length_le (by omega)]
    have : (s.length + 1) - s.length = 1 := by omega
    rw [this, hrest]
    rfl
  have hstrip : dropTrailingWs (s ++ ['\n']) = s := by
    rw [dropTrailingWs, List.reverse_append]
    show (('\n' :: s.reverse).dropWhile isJsWs).reverse = s
    rw [List.dropWhile_cons_of_pos (by decide)]
    rw [dropWhile_eq_self_of_head (fun c hc => hl c (by rwa [List.head?_reverse] at hc)),
      List.reverse_reverse]
  rw [fenceInner, hfind0]
  simp only [show (0 + 3) = 3 from rfl, hdrop3, hlabel, if_true, hdrop4, hws, hfind2]
  rw [htake, hstrip]

/-- The fenced half of the round trip (amended): if `s` is a compact JSON
text for `v` (no surrounding whitespace) and `s` contains no triple
backtick, the extractor recovers `v` from the fenced wrapper. -/
theorem safeJsonParseL_fenceText {s : List Char} {v : JVal} (hp : jsonParseL s = some v)
    (hh : ∀ c, s.head? = some c → isJsWs c = false)
    (hl : ∀ c, s.getLast? = some c → isJsWs c = false)
    (hf : ¬ tick3 <:+: s) :
    safeJsonParseL (fenceText s) = v := by
  have hs : s ≠ [] := jsonParseL_ne_nil hp
  have htrim : jsTrimL (fenceText s) = fenceText s := by
    refine jsTrimL_eq_self ?_ ?_
    · intro c hc
      have : (fenceText s).head? = some '`' := by rfl
      rw [this] at hc
      injection hc with hc2
      subst hc2
      decide
    · intro c hc
      have : (fenceText s).getLast? = some '`' := by
        show (("```json\n".toList ++ s) ++ "\n```".toList).getLast? = some '`'
        rw [List.getLast?_append]
        rfl
      rw [this] at hc
      injection hc with hc2
      subst hc2
      decide
  have hstep1 : jsonParseL (fenceText s) = none := by
    have hcons : fenceText s = '`' :: ("``json\n".toList ++ s ++ "\n```".toList) := by rfl
    rw [hcons]
    exact jsonParseL_backtick _
  have hne : (fenceText s).isEmpty = false := by rfl
  have hie : s.isEmpty = false := by
    cases s with
    | nil => exact absurd rfl hs
    | cons c tl => rfl
  simp only [safeJsonParseL, htrim, hne, Bool.false_eq_true, if_false, hstep1,
    fenceInner_fenceText hs hh hl hf, hie, jsTrimL_eq_self hh hl, hp]

theorem trimLeftL_append {P X : List Char}
    (hX : ∀ c, X.head? = some c → isJsWs c = false) :
    trimLeftL (P ++ X) = trimLeftL P ++ X := by
  rw [trimLeftL, List.dropWhile_append]
  by_cases he : (P.dropWhile isJsWs).isEmpty
  · rw [if_pos he, dropWhile_eq_self_of_head hX, trimLeftL,
      List.isEmpty_iff.mp he, List.nil_append]
  · rw [if_neg he]
    rfl

theorem trimRightL_append {X S : List Char}
    (hX : ∀ c, X.getLast? = some c → isJsWs c = false) :
    trimRightL (X ++ S) = X ++ trimRightL S := by
  rw [trimRightL, List.reverse_append, List.dropWhile_append]
  have hrev : ∀ c, X.reverse.head? = some c → isJsWs c = false := fun c hc =>
    hX c (by rwa [List.head?_reverse] at hc)
  by_cases he : (S.reverse.dropWhile isJsWs).isEmpty
  · rw [if_pos he, dropWhile_eq_self_of_head hrev, List.reverse_reverse, trimRightL,
      List.isEmpty_iff.mp he]
    simp
  · rw [if_neg he, List.reverse_append, List.reverse_reverse]
    rfl

theorem getLast_append_of_ne_nil {A s : List Char} (hs : s ≠ []) :
    (A ++ s).getLast? = s.getLast? := by
  rw [List.getLast?_append]
  cases hgl : s.getLast? with
  | none => exact absurd (List.getLast?_eq_none_iff.mp hgl) hs
  | some c => rfl

theorem jsTrimL_decomp {P s S : List Char} (hs : s ≠ [])
    (hh : ∀ c, s.head? = some c → isJsWs c = false)
    (hl : ∀ c, s.getLast? = some c → isJsWs c = false) :
    jsTrimL (P ++ s ++ S) = trimLeftL P ++ s ++ trimRightL S := by
  have hXh : ∀ c, (s ++ S).head? = some c → isJsWs c = false := by
    intro c hc
    rw [head_append_of_ne_nil hs] at hc
    exact hh c hc
  have hXl : ∀ c, (trimLeftL P ++ s).getLast? = some c → isJsWs c = false := by
    intro c hc
    rw [getLast_append_of_ne_nil hs] at hc
    exact hl c hc
  rw [jsTrimL, List.append_assoc, trimLeftL_append hXh, ← List.append_assoc,
    trimRightL_append hXl]

/-- The embedded half of the round trip (amended): a compact top-level
JSON object text recovered from surrounding prose, provided the prefix has
no opening brace, the suffix has no closing brace, the whole text has no
triple backtick, and the whole trimmed text is not itself a different
valid JSON document. -/
theorem safeJsonParseL_embedded {s P S : List Char} {v : JVal}
    (hp : jsonParseL s = some v)
    (hhead : s.head? = some '\x7b') (hlast : s.getLast? = some '\x7d')
    (hP : '\x7b' ∉ P) (hS : '\x7d' ∉ S)
    (hf : ¬ tick3 <:+: (P ++ s ++ S))
    (hstep1 : jsonParseL (jsTrimL (P ++ s ++ S)) = none ∨ jsTrimL (P ++ s ++ S) = s) :
    safeJsonParseL (P ++ s ++ S) = v := by
  have hs : s ≠ [] := jsonParseL_ne_nil hp
  have hh : ∀ c, s.head? = some c → isJsWs c = false := by
    intro c hc
    rw [hhead] at hc
    injection hc with hc2
    subst hc2
    decide
  have hl : ∀ c, s.getLast? = some c → isJsWs c = false := by
    intro c hc
    rw [hlast] at hc
    injection hc with hc2
    subst hc2
    decide
  have hie : s.isEmpty = false := by
    cases s with
    | nil => exact absurd rfl hs
    | cons c tl => rfl
  have hdecomp : jsTrimL (P ++ s ++ S) = trimLeftL P ++ s ++ trimRightL S :=
    jsTrimL_decomp hs hh hl
  rcases hstep1 with hnone | heq
  · have hP2 : ('\x7b' : Char) ∉ trimLeftL P := fun hm => hP (List.dropWhile_subset _ hm)
    have hS2 : ('\x7d' : Char) ∉ trimRightL S := by
      intro hm
      refine hS ?_
      have h1 : ('\x7d' : Char) ∈ (S.reverse.dropWhile isJsWs) := by
        rw [trimRightL] at hm
        exact (List.mem_reverse).mp hm
      exact (List.mem_reverse).mp (List.dropWhile_subset _ h1)
    have hinfix : (trimLeftL P ++ s ++ trimRightL S) <:+: (P ++ s ++ S) := by
      obtain ⟨u, hu⟩ : trimLeftL P <:+ P := List.dropWhile_suffix _
      obtain ⟨w, hw⟩ : trimRightL S <+: S := by
        rw [trimRightL]
        obtain ⟨w2, hw2⟩ : (S.reverse.dropWhile isJsWs) <:+ S.reverse :=
          List.dropWhile_suffix _
        exact ⟨w2.reverse, by rw [← List.reverse_append, hw2, List.reverse_reverse]⟩
      have habs : ∀ A B : List Char, u ++ A = P → B ++ w = S →
          u ++ (A ++ s ++ B) ++ w = P ++ s ++ S := by
        intro A B h1 h2
        rw [← h1, ← h2]
        simp [List.append_assoc]
      exact ⟨u, w, habs _ _ hu hw⟩
    have hf2 : ¬ tick3 <:+: (trimLeftL P ++ s ++ trimRightL S) := fun hi =>
      hf (hi.trans hinfix)
    have hfence : fenceInner (trimLeftL P ++ s ++ trimRightL S) = none := by
      rw [fenceInner, findSub_none_of_no_occurrence hf2]
    obtain ⟨c0, tl, rfl⟩ : ∃ c0 tl, s = c0 :: tl := by
      cases s with
      | nil => exact absurd rfl hs
      | cons c0 tl => exact ⟨c0, tl, rfl⟩
    have hc0 : c0 = '\x7b' := by
      have h6 : some c0 = some '\x7b' := hhead
      exact Option.some.inj h6
    subst hc0
    have hlen2 : 2 ≤ ('\x7b' :: tl).length := by
      cases tl with
      | nil => exact absurd hlast (by decide)
      | cons d tl2 => simp
    have hfirst : (trimLeftL P ++ '\x7b' :: tl ++ trimRightL S).findIdx?
        (· = '\x7b') = some (trimLeftL P).length := by
      rw [List.append_assoc, List.findIdx?_append]
      have h1 : (trimLeftL P).findIdx? (· = '\x7b') = none :=
        List.findIdx?_eq_none_iff.mpr
          (fun x hx => decide_eq_false (fun hc => hP2 (hc ▸ hx)))
      rw [h1]
      simp [List.findIdx?_cons]
    have hlast2 : ((trimLeftL P ++ '\x7b' :: tl ++ trimRightL S).reverse.findIdx?
        (· = '\x7d')) = some (trimRightL S).length := by
      rw [List.reverse_append, List.reverse_append, List.findIdx?_append]
      have h1 : ((trimRightL S).reverse).findIdx? (· = '\x7d') = none :=
        List.findIdx?_eq_none_iff.mpr
          (fun x hx => decide_eq_false (fun hc => hS2 (hc ▸ (List.mem_reverse).mp hx)))
      rw [h1]
      obtain ⟨d, tl2, hrev⟩ : ∃ d tl2, ('\x7b' :: tl).reverse = d :: tl2 := by
        cases hr : ('\x7b' :: tl).reverse with
        | nil => exact absurd (List.reverse_eq_nil_iff.mp hr) (by simp)
        | cons d tl2 => exact ⟨d, tl2, rfl⟩
      have hd : d = '\x7d' := by
        have h5 : ('\x7b' :: tl).reverse.head? = some '\x7d' := by
          rw [List.head?_reverse]
          exact hlast
        rw [hrev] at h5
        simp only [List.head?_cons, Option.some.injEq] at h5
        exact h5
      subst hd
      rw [hrev]
      simp [List.findIdx?_cons, List.length_reverse]
    have hlen : (trimLeftL P ++ '\x7b' :: tl ++ trimRightL S).length =
        (trimLeftL P).length + ('\x7b' :: tl).length + (trimRightL S).length := by
      simp [List.length_append]
      omega
    have hslice :
        ((trimLeftL P ++ '\x7b' :: tl ++ trimRightL S).take
          ((trimLeftL P).length + ('\x7b' :: tl).length - 1 + 1)).drop
          (trimLeftL P).length = '\x7b' :: tl := by
      have h1 : (trimLeftL P).length + ('\x7b' :: tl).length - 1 + 1 =
          (trimLeftL P ++ '\x7b' :: tl).length := by
        rw [List.length_append]
        omega
      rw [h1, List.take_left]
      exact List.drop_left _ _
    rw [safeJsonParseL, hdecomp]
    have hieT : (trimLeftL P ++ '\x7b' :: tl ++ trimRightL S).isEmpty = false := by
      simp
    rw [hdecomp] at hnone
    have hl1 : (trimLeftL P ++ '\x7b' :: tl ++ trimRightL S).length - 1 -
        (trimRightL S).length = (trimLeftL P).length + ('\x7b' :: tl).length - 1 := by
      rw [hlen]
      have : 1 ≤ ('\x7b' :: tl).length := by simp
      omega
    have hlt : (trimLeftL P).length < (trimLeftL P).length + ('\x7b' :: tl).length - 1 := by
      omega
    simp only [hieT, Bool.false_eq_true, if_false, hnone, hfence, hfirst, hlast2,
      Option.map_some', hl1, if_pos hlt, hslice, hp]
  · rw [safeJsonParseL]
    rw [heq, hie]
    simp only [Bool.false_eq_true, if_false, hp]

/-- C5, counterexample.  The claim quantifies over every serializable
value; for the string value `"``` "` the compact serialization contains a
triple backtick, the lazy fence regex captures just the opening quote,
that capture fails to parse, and the brace fallback finds no braces, so
extraction from the fenced wrapper yields null instead of the value. -/
theorem json_extractor_roundtrip_counterexample :
    jsonParse "\"``` \"" = some (.str "``` ") ∧
    safeJsonParseL (fenceText "\"``` \"".toList) = JVal.null ∧
    JVal.null ≠ JVal.str "``` " :=
  ⟨by rfl, by rfl, by simp⟩

/-- C5, amended.  The extractor round trip holds with the restrictions the
counterexample forces: (fenced) if `s` is a compact JSON text for `v` (no
leading/trailing whitespace) containing no triple backtick, extraction
from `"```json\n" + s + "\n```"` yields `v`; (embedded) if `s` is a
compact top-level-object JSON text for `v`, the prefix contains no
opening brace, the suffix no closing brace, the combined text no triple
backtick, and the trimmed combined text is not itself parseable JSON
(unless it trims exactly to `s`), extraction from `prefix + s + suffix`
yields `v`.  Without these restrictions the claim is false. -/
theorem json_extractor_roundtrip_amended :
    (∀ (s : List Char) (v : JVal), jsonParseL s = some v →
      (∀ c, s.head? = some c → isJsWs c = false) →
      (∀ c, s.getLast? = some c → isJsWs c = false) →
      ¬ tick3 <:+: s →
      safeJsonParseL (fenceText s) = v) ∧
    (∀ (s P S : List Char) (v : JVal), jsonParseL s = some v →
      s.head? = some '\x7b' → s.getLast? = some '\x7d' →
      '\x7b' ∉ P → '\x7d' ∉ S →
      ¬ tick3 <:+: (P ++ s ++ S) →
      (jsonParseL (jsTrimL (P ++ s ++ S)) = none ∨ jsTrimL (P ++ s ++ S) = s) →
      safeJsonParseL (P ++ s ++ S) = v) :=
  ⟨fun _ _ hp hh hl hf => safeJsonParseL_fenceText hp hh hl hf,
    fun _ _ _ _ hp h1 h2 h3 h4 h5 h6 => safeJsonParseL_embedded hp h1 h2 h3 h4 h5 h6⟩

/-- C5, witness. -/
theorem json_extractor_roundtrip_witness :
    jsonParseL "\x7b\"a\":1\x7d".toList = some (.obj [("a", .num (.fin 1))]) ∧
    (¬ tick3 <:+: "\x7b\"a\":1\x7d".toList) ∧
    (¬ tick3 <:+: ("Sure! ".toList ++ "\x7b\"a\":1\x7d".toList ++ " ok.".toList)) ∧
    safeJsonParseL (fenceText "\x7b\"a\":1\x7d".toList) = .obj [("a", .num (.fin 1))] ∧
    safeJsonParseL ("Sure! ".toList ++ "\x7b\"a\":1\x7d".toList ++ " ok.".toList) =
      .obj [("a", .num (.fin 1))] := by
  refine ⟨by rfl, by decide, by decide, ?_, ?_⟩
  · refine json_extractor_roundtrip_amended.1 _ _ (by rfl) ?_ ?_ (by decide)
    · intro c hc
      have h0 : ("\x7b\"a\":1\x7d".toList).head? = some '\x7b' := by rfl
      rw [h0] at hc
      injection hc with h1
      subst h1
      decide
    · intro c hc
      have h0 : ("\x7b\"a\":1\x7d".toList).getLast? = some '\x7d' := by decide
      rw [h0] at hc
      injection hc with h1
      subst h1
      decide
  · exact json_extractor_roundtrip_amended.2 _ _ _ _ (by rfl) (by rfl) (by decide)
      (by decide) (by decide) (by decide) (Or.inl (by rfl))

end ExamGame
